import Mathlib

/-!
Verification of the Echo Genesis 2D platformer simulation core.

This file gives a shallow embedding, in Lean 4, of the parts of the engine
that the checked claims concern:

* `src/js/utils/Vector2.js`      — rational 2D vectors (`Vec2`);
* `src/js/core/GameObject.js`    — object state (`PhysObj`), bounds, forces;
* `src/js/core/Physics.js`       — gravity, narrow phase AABB test, collision
  resolution (positional correction, impulse, friction, triggers), the
  collision layer machinery, the spatial grid broad phase, and raycasting;
* `World` (object lifecycle: deferred add/remove queues);
* `Player` (damage/heal) and `Enemy` (patrol AI).

Number model: JavaScript numbers are IEEE-754 doubles.  Wherever the code
path under scrutiny stays within finite values and performs no division by
zero, doubles behave as exact field arithmetic on the represented values, and
the embedding uses `ℚ`.  For the claims whose whole point is behaviour at a
division by zero (raycast with a zero direction, impulse with a zero mass)
the embedding uses an explicit IEEE-style number type `JSNum` with signed
infinities and NaN.
-/

namespace EchoGenesis

/-- Rational 2D vector, modelling `Vector2` of `src/js/utils/Vector2.js`
on code paths that stay within finite, division-free double arithmetic. -/
structure Vec2 where
  x : ℚ
  y : ℚ
deriving DecidableEq, Repr

namespace Vec2

/-- `Vector2.add` (vector argument case). -/
def add (a b : Vec2) : Vec2 := ⟨a.x + b.x, a.y + b.y⟩

/-- `Vector2.subtract` (vector argument case). -/
def sub (a b : Vec2) : Vec2 := ⟨a.x - b.x, a.y - b.y⟩

/-- `Vector2.multiply` with a scalar argument. -/
def smul (a : Vec2) (s : ℚ) : Vec2 := ⟨a.x * s, a.y * s⟩

/-- `Vector2.dot`. -/
def dot (a b : Vec2) : ℚ := a.x * b.x + a.y * b.y

/-- `Vector2.magnitudeSquared`. -/
def magnitudeSquared (a : Vec2) : ℚ := a.x * a.x + a.y * a.y

/-- The zero vector (`Vector2.zero()`). -/
def zero : Vec2 := ⟨0, 0⟩

/-- `Vector2.normalized`, parametrised by the square-root function used for
`magnitude()` (JavaScript `Math.sqrt` has no exact rational counterpart; the
theorems below either evaluate `sqrt` at perfect squares only, or assume no
more of it than `Math.sqrt` guarantees, namely non-negativity).  The code
guards the zero vector: `if (mag === 0) return Vector2.zero()`. -/
def normalizedWith (sqrt : ℚ → ℚ) (a : Vec2) : Vec2 :=
  let mag := sqrt (a.x * a.x + a.y * a.y)
  if mag = 0 then zero else ⟨a.x / mag, a.y / mag⟩

end Vec2

/-- `Math.abs` on finite values. -/
def mathAbs (q : ℚ) : ℚ := if q < 0 then -q else q

/-!  ## Player (`Player` class, damage and healing)  -/

/-- The slice of `Player` state that `takeDamage`, `heal`, `die`, `respawn`
and `gameOver` read or write.  `shieldEnabled` models
`hasAbility('shield')` (the ability is registered and enabled) and
`shieldActive` models `abilities.get('shield').active`.  `checkpoint`
models `window.game.world.getCurrentCheckpoint()?.position` (the optional
respawn position); `gameOverFired` records that `gameOver()` escalated to
the game object. -/
structure Player where
  health : ℚ
  maxHealth : ℚ
  lives : ℤ
  invulnerabilityTime : ℚ
  invulnerabilityDuration : ℚ
  shieldEnabled : Bool
  shieldActive : Bool
  position : Vec2
  velocity : Vec2
  size : Vec2
  mass : ℚ
  score : ℚ
  gameOverFired : Bool
deriving DecidableEq, Repr

namespace Player

/-- `GameObject.getCenter` for a player without custom collision bounds
(the `Player` constructor never sets `collisionBounds`). -/
def getCenter (p : Player) : Vec2 :=
  ⟨p.position.x + p.size.x / 2, p.position.y + p.size.y / 2⟩

/-- `GameObject.addImpulse`: `velocity += impulse / mass`. -/
def addImpulse (p : Player) (j : Vec2) : Player :=
  { p with velocity := p.velocity.add ⟨j.x / p.mass, j.y / p.mass⟩ }

/-- `Player.respawn`: refill health, grant a doubled invulnerability window,
move to the current checkpoint when one exists, zero the velocity. -/
def respawn (checkpoint : Option Vec2) (p : Player) : Player :=
  let p := { p with
    health := p.maxHealth
    invulnerabilityTime := p.invulnerabilityDuration * 2 }
  let p := match checkpoint with
    | some c => { p with position := c }
    | none => p
  { p with velocity := Vec2.zero }

/-- `Player.gameOver`: only notifies the surrounding game object. -/
def gameOver (p : Player) : Player :=
  { p with gameOverFired := true }

/-- `Player.die`: decrement lives, then respawn or game over. -/
def die (checkpoint : Option Vec2) (p : Player) : Player :=
  let p := { p with lives := p.lives - 1 }
  if p.lives > 0 then respawn checkpoint p else gameOver p

/-- Centre of the object dealing the damage (the `source` argument of
`takeDamage`); only its centre is read. -/
structure DamageSource where
  center : Vec2
deriving DecidableEq, Repr

/-- `Player.takeDamage(amount, source)` of `src/unnamed/part_001`
(lines 563-587).  Returns the updated player and the boolean result.
`sqrt` stands for `Math.sqrt` inside `Vector2.normalized`. -/
def takeDamage (sqrt : ℚ → ℚ) (checkpoint : Option Vec2) (p : Player)
    (amount : ℚ) (source : Option DamageSource) : Player × Bool :=
  if p.invulnerabilityTime > 0 then (p, false)
  else if p.shieldEnabled && p.shieldActive then (p, false)
  else
    let p1 : Player := { p with
      health := p.health - amount
      invulnerabilityTime := p.invulnerabilityDuration }
    let p2 : Player := match source with
      | some s =>
          let knockbackDirection :=
            Vec2.normalizedWith sqrt (p1.getCenter.sub s.center)
          p1.addImpulse (knockbackDirection.smul 200)
      | none => p1
    let p3 : Player := if p2.health ≤ 0 then die checkpoint p2 else p2
    (p3, true)

/-- `Player.heal(amount)` of `src/unnamed/part_001` (lines 589-592):
`health = Math.min(maxHealth, health + amount)`. -/
def heal (p : Player) (amount : ℚ) : Player :=
  { p with health := min p.maxHealth (p.health + amount) }

end Player

/-!  ## Enemy patrol AI (`Enemy.updatePatrol`, `src/unnamed/part_000`)  -/

/-- The slice of `Enemy` state read or written by `updatePatrol`. -/
structure Enemy where
  position : Vec2
  velocity : Vec2
  startPosition : Vec2
  patrolDistance : ℚ
  stateTimer : ℚ
  direction : ℚ
  speed : ℚ
deriving DecidableEq, Repr

namespace Enemy

/-- `Enemy.updatePatrol(deltaTime)` of `src/unnamed/part_000`
(lines 257-266): reverse `direction` when the horizontal distance from
`startPosition.x` reaches `patrolDistance` or when `stateTimer` exceeds 3
seconds, then drive `velocity.x` from the (possibly reversed) direction. -/
def updatePatrol (e : Enemy) : Enemy :=
  let e1 : Enemy :=
    if mathAbs (e.position.x - e.startPosition.x) ≥ e.patrolDistance
        ∨ e.stateTimer > 3 then
      { e with direction := e.direction * (-1), stateTimer := 0 }
    else e
  { e1 with velocity := ⟨e1.direction * e1.speed * (1/2), e1.velocity.y⟩ }

end Enemy

/-!  ## Physics object state and gravity (`Physics.applyGravity`)  -/

/-- The slice of `GameObject` state read by the `Physics` collision
pipeline (`src/js/core/GameObject.js` constructor, `src/js/core/Physics.js`).
`hasStaticTag` models `hasTag('static')`; `hasTriggerCallback` models the
presence of an `onTriggerEnter` callback and `hasCollisionCallback` that of
an `onCollision` callback (both are nullable function-valued fields). -/
structure PhysObj where
  id : ℕ
  position : Vec2
  velocity : Vec2
  acceleration : Vec2
  size : Vec2
  collisionBounds : Option (ℚ × ℚ × ℚ × ℚ)
  mass : ℚ
  friction : ℚ
  bounciness : ℚ
  gravityScale : ℚ
  active : Bool
  solid : Bool
  destroyed : Bool
  isTrigger : Bool
  collisionLayers : List String
  collisionMask : List String
  hasStaticTag : Bool
  hasTriggerCallback : Bool
  hasCollisionCallback : Bool
deriving DecidableEq, Repr

/-- World-space AABB. -/
structure Bounds where
  x : ℚ
  y : ℚ
  width : ℚ
  height : ℚ
deriving DecidableEq, Repr

namespace PhysObj

/-- `GameObject.getBounds`: the custom collision bounds offset by the
position when set, otherwise position and size. -/
def getBounds (o : PhysObj) : Bounds :=
  match o.collisionBounds with
  | some (cx, cy, cw, ch) => ⟨o.position.x + cx, o.position.y + cy, cw, ch⟩
  | none => ⟨o.position.x, o.position.y, o.size.x, o.size.y⟩

/-- `GameObject.addForce`: `acceleration += force / mass`. -/
def addForce (o : PhysObj) (f : Vec2) : PhysObj :=
  { o with acceleration := o.acceleration.add ⟨f.x / o.mass, f.y / o.mass⟩ }

end PhysObj

/-- The per-object body of `Physics.applyGravity` (`src/js/core/Physics.js`
lines 79-91): for an active, non-destroyed object with `gravityScale > 0`,
add `gravity * gravityScale * mass` as a force and clamp `velocity.y` to the
terminal velocity; all other objects are left untouched. -/
def applyGravityObj (gravity : Vec2) (terminalVelocity : ℚ)
    (o : PhysObj) : PhysObj :=
  if o.active && !o.destroyed && decide (o.gravityScale > 0) then
    let gravityForce := gravity.smul (o.gravityScale * o.mass)
    let o1 := o.addForce gravityForce
    if o1.velocity.y > terminalVelocity then
      { o1 with velocity := ⟨o1.velocity.x, terminalVelocity⟩ }
    else o1
  else o

/-- `Physics.applyGravity` over the object list. -/
def applyGravity (gravity : Vec2) (terminalVelocity : ℚ)
    (objects : List PhysObj) : List PhysObj :=
  objects.map (applyGravityObj gravity terminalVelocity)

/-!  ## Collision layers (`Physics.setupDefaultCollisionLayers`,
`Physics.canLayersCollide`, `Physics.shouldCheckCollision`)  -/

/-- The collision matrix: `Map` from a layer name to the set of layer names
it may collide with, modelled as an association list in insertion order. -/
def CollisionMatrix := List (String × List String)

/-- `Physics.setupDefaultCollisionLayers` (`src/js/core/Physics.js`
lines 24-32): the fixed layer adjacency table. -/
def defaultCollisionMatrix : CollisionMatrix :=
  [ ("player", ["solid", "platform", "enemy", "pickup"]),
    ("enemy", ["solid", "platform", "player", "projectile"]),
    ("projectile", ["solid", "enemy"]),
    ("pickup", ["player"]),
    ("solid", ["player", "enemy", "projectile"]),
    ("platform", ["player", "enemy"]) ]

/-- `Physics.canLayersCollide(layer1, layer2)` (lines 38-41): truthiness of
`collisionMatrix.get(layer1) && collisionMatrix.get(layer1).has(layer2)`. -/
def canLayersCollide (m : CollisionMatrix) (layer1 layer2 : String) : Bool :=
  match (List.lookup layer1 m : Option (List String)) with
  | some layer1Collisions => layer1Collisions.contains layer2
  | none => false

/-- `Physics.shouldCheckCollision(objA, objB)` (lines 127-153).  Object
identity (`objA === objB`) is modelled as id equality, which coincides with
reference equality because `GameObject.generateId` hands out a fresh id to
every constructed object.  The `|| ['default']` fallbacks never fire: the
`GameObject` constructor always installs non-null layer and mask arrays. -/
def shouldCheckCollision (objA objB : PhysObj) : Bool :=
  if objA.id = objB.id then false
  else if objA.destroyed || objB.destroyed || !objA.active || !objB.active then
    false
  else if !objA.solid && !objB.solid && !objA.isTrigger && !objB.isTrigger then
    false
  else
    objA.collisionLayers.any fun layerA =>
      objB.collisionLayers.any fun layerB =>
        objA.collisionMask.contains layerB || objB.collisionMask.contains layerA

/-!  ## Narrow phase (`Physics.checkAABBCollision`) and resolution  -/

/-- A collision record as produced by `Physics.checkAABBCollision`. -/
structure Collision where
  normal : Vec2
  penetration : ℚ
  point : Vec2
deriving DecidableEq, Repr

/-- `Physics.checkAABBCollision(objA, objB)` (lines 155-194). -/
def checkAABBCollision (objA objB : PhysObj) : Option Collision :=
  let boundsA := objA.getBounds
  let boundsB := objB.getBounds
  if boundsA.x + boundsA.width ≤ boundsB.x ∨
     boundsB.x + boundsB.width ≤ boundsA.x ∨
     boundsA.y + boundsA.height ≤ boundsB.y ∨
     boundsB.y + boundsB.height ≤ boundsA.y then
    none
  else
    let overlapX := min (boundsA.x + boundsA.width) (boundsB.x + boundsB.width)
      - max boundsA.x boundsB.x
    let overlapY := min (boundsA.y + boundsA.height) (boundsB.y + boundsB.height)
      - max boundsA.y boundsB.y
    let (normal, penetration) :=
      if overlapX < overlapY then
        (if boundsA.x < boundsB.x then Vec2.mk (-1) 0 else Vec2.mk 1 0, overlapX)
      else
        (if boundsA.y < boundsB.y then Vec2.mk 0 (-1) else Vec2.mk 0 1, overlapY)
    some ⟨normal, penetration,
      ⟨max boundsA.x boundsB.x + overlapX / 2,
       max boundsA.y boundsB.y + overlapY / 2⟩⟩

/-- `Physics.positionalCorrection(objA, objB, collision)` (lines 228-249):
the 80% correction split by the mass of the other object, with a
solid-only-one-side fallback. -/
def positionalCorrection (objA objB : PhysObj) (collision : Collision) :
    PhysObj × PhysObj :=
  let correction := collision.normal.smul (collision.penetration * (4/5))
  let totalMass := objA.mass + objB.mass
  let ratioA := objB.mass / totalMass
  let ratioB := objA.mass / totalMass
  if objA.solid && objB.solid then
    ({ objA with position := objA.position.sub (correction.smul ratioA) },
     { objB with position := objB.position.add (correction.smul ratioB) })
  else if objA.solid then
    (objA, { objB with position := objB.position.add correction })
  else if objB.solid then
    ({ objA with position := objA.position.sub correction }, objB)
  else
    (objA, objB)

/-- `Math.sign` on finite values. -/
def mathSign (q : ℚ) : ℚ := if q > 0 then 1 else if q < 0 then -1 else 0

/-- A computable stand-in for `Math.sqrt` on non-negative rationals: exact
(equal to the real square root) whenever the argument is the square of a
rational.  Used to instantiate the `sqrt` parameter of the functions below
in witnesses and counterexamples, which only ever evaluate it at perfect
squares. -/
def ratSqrt (q : ℚ) : ℚ := mkRat (Nat.sqrt q.num.toNat) (Nat.sqrt q.den)

/-- `Physics.applyFriction(objA, objB, collision, normalImpulse)`
(lines 282-312), over `ℚ` (the paths exercised by the theorems below divide
only by non-zero quantities; `sqrt` stands for `Math.sqrt`). -/
def applyFriction (sqrt : ℚ → ℚ) (objA objB : PhysObj)
    (collision : Collision) (normalImpulse : ℚ) : PhysObj × PhysObj :=
  let normal := collision.normal
  let relativeVelocity := objB.velocity.sub objA.velocity
  let tangent :=
    relativeVelocity.sub (normal.smul (relativeVelocity.dot normal))
  if tangent.magnitudeSquared < 1/1000 then (objA, objB)
  else
    let mag := sqrt tangent.magnitudeSquared
    let tangent := if mag > 0 then ⟨tangent.x / mag, tangent.y / mag⟩ else tangent
    let frictionCoefficient := sqrt (objA.friction * objB.friction)
    let frictionImpulse :=
      (-(relativeVelocity.dot tangent)) / (1 / objA.mass + 1 / objB.mass)
    let frictionMagnitude := |normalImpulse| * frictionCoefficient
    let friction :=
      if |frictionImpulse| < frictionMagnitude then
        tangent.smul frictionImpulse
      else
        tangent.smul (-frictionMagnitude * mathSign frictionImpulse)
    let objA :=
      if objA.solid && !objA.hasStaticTag then
        { objA with velocity := objA.velocity.sub (friction.smul (1 / objA.mass)) }
      else objA
    let objB :=
      if objB.solid && !objB.hasStaticTag then
        { objB with velocity := objB.velocity.add (friction.smul (1 / objB.mass)) }
      else objB
    (objA, objB)

/-- `Physics.resolveVelocity(objA, objB, collision)` (lines 251-280), over
`ℚ` with the same caveats as `applyFriction`. -/
def resolveVelocity (sqrt : ℚ → ℚ) (objA objB : PhysObj)
    (collision : Collision) : PhysObj × PhysObj :=
  let normal := collision.normal
  let relativeVelocity := objB.velocity.sub objA.velocity
  let velocityAlongNormal := relativeVelocity.dot normal
  if velocityAlongNormal > 0 then (objA, objB)
  else
    let restitution := min objA.bounciness objB.bounciness
    let impulseScalar := (-(1 + restitution) * velocityAlongNormal)
      / (1 / objA.mass + 1 / objB.mass)
    let impulse := normal.smul impulseScalar
    let objA :=
      if objA.solid && !objA.hasStaticTag then
        { objA with velocity := objA.velocity.sub (impulse.smul (1 / objA.mass)) }
      else objA
    let objB :=
      if objB.solid && !objB.hasStaticTag then
        { objB with velocity := objB.velocity.add (impulse.smul (1 / objB.mass)) }
      else objB
    applyFriction sqrt objA objB collision impulseScalar

/-- Counts how often each external callback has been invoked.  The engine
invokes `onTriggerEnter` and `onCollision` callbacks it does not define; the
embedding instruments them by counting invocations per side. -/
structure CallbackCounts where
  triggerEnterA : ℕ
  triggerEnterB : ℕ
  collisionA : ℕ
  collisionB : ℕ
deriving DecidableEq, Repr

/-- `Physics.handleTriggerCollision(objA, objB, collision)` (lines 314-322):
invoke `onTriggerEnter` on each trigger side that has a callback; nothing
else is touched. -/
def handleTriggerCollision (objA objB : PhysObj) (counts : CallbackCounts) :
    CallbackCounts :=
  let counts :=
    if objA.isTrigger && objA.hasTriggerCallback then
      { counts with triggerEnterA := counts.triggerEnterA + 1 }
    else counts
  if objB.isTrigger && objB.hasTriggerCallback then
    { counts with triggerEnterB := counts.triggerEnterB + 1 }
  else counts

/-- `Physics.handleCollisionCallbacks(objA, objB, collision)`
(lines 324-331). -/
def handleCollisionCallbacks (objA objB : PhysObj) (counts : CallbackCounts) :
    CallbackCounts :=
  let counts :=
    if objA.hasCollisionCallback then
      { counts with collisionA := counts.collisionA + 1 }
    else counts
  if objB.hasCollisionCallback then
    { counts with collisionB := counts.collisionB + 1 }
  else counts

/-- `Physics.resolveCollision(pair)` (lines 206-226): triggers first (no
position or velocity change, then stop), then skip when neither side is
solid, then positional correction, velocity resolution and callbacks. -/
def resolveCollision (sqrt : ℚ → ℚ) (objA objB : PhysObj)
    (collision : Collision) (counts : CallbackCounts) :
    PhysObj × PhysObj × CallbackCounts :=
  if objA.isTrigger || objB.isTrigger then
    (objA, objB, handleTriggerCollision objA objB counts)
  else if !objA.solid && !objB.solid then
    (objA, objB, counts)
  else
    let (objA, objB) := positionalCorrection objA objB collision
    let (objA, objB) := resolveVelocity sqrt objA objB collision
    (objA, objB, handleCollisionCallbacks objA objB counts)

/-!  ## SpatialGrid (`src/js/core/Physics.js` lines 437-500)  -/

namespace SpatialGrid

/-- A grid cell key.  The source keys its `Map` with the string
`x + "," + y`, which is an injective encoding of the integer pair, so the
embedding keys directly with the pair. -/
abbrev Cell := ℤ × ℤ

/-- The grid: a `Map` from cell key to the list of objects pushed into that
cell, modelled as an association list in insertion order (a JavaScript `Map`
iterates in insertion order). -/
abbrev Grid := List (Cell × List PhysObj)

/-- `SpatialGrid.getCellsForBounds(bounds)` (lines 467-481): all integer
cells from `floor(x / cellSize)` to `floor((x + width) / cellSize)`
inclusive, and likewise for y, in the loop order of the source. -/
def getCellsForBounds (cellSize : ℚ) (bounds : Bounds) : List Cell :=
  let startX := ⌊bounds.x / cellSize⌋
  let endX := ⌊(bounds.x + bounds.width) / cellSize⌋
  let startY := ⌊bounds.y / cellSize⌋
  let endY := ⌊(bounds.y + bounds.height) / cellSize⌋
  (List.range (endX - startX + 1).toNat).flatMap fun i =>
    (List.range (endY - startY + 1).toNat).map fun j =>
      (startX + (i : ℤ), startY + (j : ℤ))

/-- Push an object into one cell of the grid: append to the existing list
for that key, or append a fresh singleton entry for a fresh key (exactly the
`grid.has / grid.set / push` sequence of `addObject`). -/
def addToCell : Grid → Cell → PhysObj → Grid
  | [], c, o => [(c, [o])]
  | (k, os) :: rest, c, o =>
      if k = c then (k, os ++ [o]) :: rest
      else (k, os) :: addToCell rest c o

/-- `Map.get` on the grid: the object list stored under a cell key (the
empty list when the key is absent). -/
def gridGet : Grid → Cell → List PhysObj
  | [], _ => []
  | (k, os) :: rest, c => if k = c then os else gridGet rest c

/-- `SpatialGrid.addObject(obj)` (lines 455-465). -/
def addObject (cellSize : ℚ) (grid : Grid) (o : PhysObj) : Grid :=
  (getCellsForBounds cellSize o.getBounds).foldl
    (fun g c => addToCell g c o) grid

/-- `SpatialGrid.addObjects(objects)` (lines 447-453): insert every active,
non-destroyed object. -/
def addObjects (cellSize : ℚ) (objects : List PhysObj) : Grid :=
  objects.foldl
    (fun g o => if o.active && !o.destroyed then addObject cellSize g o else g)
    []

/-- The `pairKey` string `min(idA, idB) + "-" + max(idA, idB)` used for
deduplication, as the integer pair it injectively encodes. -/
def pairKey (a b : PhysObj) : ℕ × ℕ := (min a.id b.id, max a.id b.id)

/-- The inner double loop of `getPotentialCollisionPairs`: all pairs
`(objects[i], objects[j])` with `i < j`, in loop order. -/
def cellPairs : List PhysObj → List (PhysObj × PhysObj)
  | [] => []
  | o :: rest => (rest.map fun p => (o, p)) ++ cellPairs rest

/-- The `checked`-set filtering of `getPotentialCollisionPairs`, threaded
over the flattened stream of per-cell candidate pairs. -/
def dedupPairs : List (PhysObj × PhysObj) → List (ℕ × ℕ) →
    List (PhysObj × PhysObj)
  | [], _ => []
  | (a, b) :: rest, checked =>
      if pairKey a b ∈ checked then dedupPairs rest checked
      else (a, b) :: dedupPairs rest (pairKey a b :: checked)

/-- `SpatialGrid.getPotentialCollisionPairs()` (lines 483-500).  The source
iterates cells in insertion order with the inner `i < j` double loop,
threading one `checked` set through the whole iteration; flattening the
per-cell candidate streams first is the same iteration in the same order. -/
def getPotentialCollisionPairs (grid : Grid) : List (PhysObj × PhysObj) :=
  dedupPairs (grid.flatMap fun kc => cellPairs kc.2) []

end SpatialGrid

/-!  ## The physics sub-step for a two-object world (`Physics.physicsSubStep`,
lines 59-77, specialised to `objects = [a, b]`)  -/

/-- `Physics.integrateVelocity` (lines 93-97). -/
def integrateVelocity (dt : ℚ) (o : PhysObj) : PhysObj :=
  { o with velocity := o.velocity.add (o.acceleration.smul dt)
           acceleration := Vec2.zero }

/-- `Physics.integratePosition` (lines 99-101). -/
def integratePosition (dt : ℚ) (o : PhysObj) : PhysObj :=
  { o with position := o.position.add (o.velocity.smul dt) }

/-- State of a two-object world together with the callback invocation
counts. -/
structure PairWorld where
  a : PhysObj
  b : PhysObj
  counts : CallbackCounts
deriving DecidableEq, Repr

/-- `Physics.physicsSubStep(objects, deltaTime)` (lines 59-77) for a world
holding exactly the two objects `[a, b]`: move objects with non-zero
gravity scale, detect (broad phase over the freshly rebuilt spatial grid,
then layer check, then AABB narrow phase) and resolve collisions, then
integrate positions.  With two objects the broad phase emits at most the
single pair `(a, b)`, so the per-pair loop collapses to one conditional. -/
def physicsSubStepPair (sqrt : ℚ → ℚ) (cellSize dt : ℚ) (w : PairWorld) :
    PairWorld :=
  let move (o : PhysObj) : PhysObj :=
    if o.active && !o.destroyed && decide (o.gravityScale ≠ 0) then
      integrateVelocity dt o
    else o
  let a := move w.a
  let b := move w.b
  let potentialPairs :=
    SpatialGrid.getPotentialCollisionPairs (SpatialGrid.addObjects cellSize [a, b])
  let (a, b, counts) :=
    if potentialPairs ≠ [] ∧ shouldCheckCollision a b then
      match checkAABBCollision a b with
      | some collision => resolveCollision sqrt a b collision w.counts
      | none => (a, b, w.counts)
    else (a, b, w.counts)
  let post (o : PhysObj) : PhysObj :=
    if o.active && !o.destroyed then integratePosition dt o else o
  ⟨post a, post b, counts⟩

/-!  ## World object lifecycle (`World`, `src/unnamed/part_003`)  -/

namespace World

/-- The slice of object state the lifecycle machinery reads: identity and
the `active`/`destroyed` flags (`GameObject.destroy` sets both). -/
structure WObj where
  id : ℕ
  active : Bool
  destroyed : Bool
deriving DecidableEq, Repr

/-- The slice of `World` state the lifecycle claims concern: the live list
and the two deferred queues. -/
structure WState where
  gameObjects : List WObj
  toAdd : List WObj
  toRemove : List WObj
deriving DecidableEq, Repr

/-- Remove the first occurrence of the object with the given id
(`indexOf` + `splice` remove the first entry that is the very same
reference; ids are unique per object, so id equality models reference
equality). -/
def removeFirstById : List WObj → ℕ → List WObj
  | [], _ => []
  | o :: rest, i => if o.id = i then rest else o :: removeFirstById rest i

/-- `World.processObjectChanges()` (`src/unnamed/part_003` lines 100-120):
push every queued addition, splice out every queued removal, clear both
queues, then filter out destroyed objects. -/
def processObjectChanges (s : WState) : WState :=
  let gos := s.gameObjects ++ s.toAdd
  let gos := s.toRemove.foldl (fun l o => removeFirstById l o.id) gos
  { gameObjects := gos.filter (fun o => !o.destroyed)
    toAdd := []
    toRemove := [] }

/-- `GameObject.destroy()` applied in place to every listed object whose id
is in `ids` (game logic destroys objects while `updateGameObjects`
iterates; the mutation is visible through the list that holds the
reference). -/
def markDestroyed (ids : List ℕ) (l : List WObj) : List WObj :=
  l.map fun o =>
    if o.id ∈ ids then { o with destroyed := true, active := false } else o

/-- What the per-object updates of one frame did to the world: objects
handed to `World.addObject` (queued), objects handed to
`World.removeObject` (queued), and ids on which `destroy()` was called. -/
structure FrameEffects where
  adds : List WObj
  removes : List WObj
  destroys : List ℕ

/-- One frame of `World.update(deltaTime)` (`src/unnamed/part_003`
lines 71-98) as far as the object lifecycle is concerned: drain the
deferred queues (`processObjectChanges`), then run `updateGameObjects` over
the drained live list — during which game logic performs the given
`FrameEffects` (additions and removals are deferred into the queues,
`destroy()` mutates the listed objects in place).  Returns the end-of-frame
world state and the list of objects the frame's update/physics pass
iterated over. -/
def runFrame (s : WState) (fx : FrameEffects) : WState × List WObj :=
  let s1 := processObjectChanges s
  let s2 : WState :=
    { gameObjects := markDestroyed fx.destroys s1.gameObjects
      toAdd := s1.toAdd ++ fx.adds
      toRemove := s1.toRemove ++ fx.removes }
  (s2, s1.gameObjects)

end World

/-!  ## JavaScript number semantics (`JSNum`)

The degenerate-input claims are about what the double arithmetic of
JavaScript does at a division by zero, so the functions they concern are
embedded over an explicit IEEE-754-style value type: exact rational finite
values plus the two infinities and NaN.  The model ignores rounding (exact
rationals) and the sign of zero: on the code paths evaluated by the
theorems below every arithmetic result is exact, and no branch inspects the
sign of a zero.  -/

/-- A JavaScript number: a finite (exact rational) value, an infinity, or
NaN. -/
inductive JSNum where
  | fin (q : ℚ)
  | inf
  | ninf
  | nan
deriving DecidableEq, Repr

namespace JSNum

/-- IEEE negation. -/
def neg : JSNum → JSNum
  | fin q => fin (-q)
  | inf => ninf
  | ninf => inf
  | nan => nan

/-- IEEE addition. -/
def add : JSNum → JSNum → JSNum
  | nan, _ => nan
  | _, nan => nan
  | fin a, fin b => fin (a + b)
  | inf, ninf => nan
  | ninf, inf => nan
  | inf, _ => inf
  | _, inf => inf
  | ninf, _ => ninf
  | _, ninf => ninf

/-- IEEE subtraction (`a - b = a + (-b)`, exact in IEEE). -/
def sub (a b : JSNum) : JSNum := add a (neg b)

/-- IEEE multiplication. -/
def mul : JSNum → JSNum → JSNum
  | nan, _ => nan
  | _, nan => nan
  | fin a, fin b => fin (a * b)
  | fin a, inf => if a > 0 then inf else if a < 0 then ninf else nan
  | inf, fin a => if a > 0 then inf else if a < 0 then ninf else nan
  | fin a, ninf => if a > 0 then ninf else if a < 0 then inf else nan
  | ninf, fin a => if a > 0 then ninf else if a < 0 then inf else nan
  | inf, inf => inf
  | inf, ninf => ninf
  | ninf, inf => ninf
  | ninf, ninf => inf

/-- IEEE division.  Every zero in the evaluated paths is a positive zero,
so `a / 0` carries the sign of `a` and `0 / 0` is NaN. -/
def div : JSNum → JSNum → JSNum
  | nan, _ => nan
  | _, nan => nan
  | fin a, fin b =>
      if b ≠ 0 then fin (a / b)
      else if a > 0 then inf else if a < 0 then ninf else nan
  | fin _, inf => fin 0
  | fin _, ninf => fin 0
  | inf, fin b => if b ≥ 0 then inf else ninf
  | ninf, fin b => if b ≥ 0 then ninf else inf
  | inf, _ => nan
  | ninf, _ => nan

/-- The JavaScript `<` comparison: false whenever either side is NaN. -/
def jlt : JSNum → JSNum → Bool
  | nan, _ => false
  | _, nan => false
  | fin a, fin b => a < b
  | fin _, inf => true
  | inf, _ => false
  | ninf, ninf => false
  | ninf, _ => true
  | fin _, ninf => false

/-- The JavaScript `>` comparison. -/
def jgt (a b : JSNum) : Bool := jlt b a

/-- `Math.min`: NaN-propagating minimum. -/
def jmin : JSNum → JSNum → JSNum
  | nan, _ => nan
  | _, nan => nan
  | a, b => if jlt a b then a else b

/-- `Math.max`: NaN-propagating maximum. -/
def jmax : JSNum → JSNum → JSNum
  | nan, _ => nan
  | _, nan => nan
  | a, b => if jlt a b then b else a

/-- `Math.abs`. -/
def jabs : JSNum → JSNum
  | fin q => fin |q|
  | inf => inf
  | ninf => inf
  | nan => nan

/-- `Math.sign`. -/
def jsign : JSNum → JSNum
  | fin q => fin (mathSign q)
  | inf => fin 1
  | ninf => fin (-1)
  | nan => nan

/-- `Math.sqrt` on the discrete values: NaN for negatives and NaN, `inf`
for `inf`; on non-negative finite values the embedding returns the exact
root whenever the value is the square of a rational (the only finite points
at which the theorems below evaluate it). -/
def jsqrt : JSNum → JSNum
  | nan => nan
  | ninf => nan
  | inf => inf
  | fin q => if q < 0 then nan else fin (ratSqrt q)

end JSNum

/-- A 2D vector of JavaScript numbers. -/
structure JSVec where
  x : JSNum
  y : JSNum
deriving DecidableEq, Repr

namespace JSVec

/-- `Vector2.add`. -/
def add (a b : JSVec) : JSVec := ⟨a.x.add b.x, a.y.add b.y⟩

/-- `Vector2.subtract`. -/
def sub (a b : JSVec) : JSVec := ⟨a.x.sub b.x, a.y.sub b.y⟩

/-- `Vector2.multiply` with a scalar. -/
def smul (a : JSVec) (s : JSNum) : JSVec := ⟨a.x.mul s, a.y.mul s⟩

/-- `Vector2.dot`. -/
def dot (a b : JSVec) : JSNum := (a.x.mul b.x).add (a.y.mul b.y)

/-- `Vector2.magnitudeSquared`. -/
def magnitudeSquared (a : JSVec) : JSNum := (a.x.mul a.x).add (a.y.mul a.y)

/-- `Vector2.normalize` (the in-place variant used on the friction tangent):
divide by the magnitude when it is `> 0`, else leave the vector as is. -/
def normalize (a : JSVec) : JSVec :=
  let mag := JSNum.jsqrt a.magnitudeSquared
  if JSNum.jgt mag (JSNum.fin 0) then ⟨a.x.div mag, a.y.div mag⟩ else a

end JSVec

/-!  ## Physics degenerate paths over `JSNum`  -/

/-- A ray as assembled in `Physics.raycast` (already normalised direction:
`Vector2.normalized` maps the zero vector to the zero vector). -/
structure JSRay where
  origin : JSVec
  direction : JSVec
  maxDistance : JSNum
deriving DecidableEq, Repr

/-- An AABB of JavaScript numbers (the result of `getBounds()`). -/
structure JSBounds where
  x : JSNum
  y : JSNum
  width : JSNum
  height : JSNum
deriving DecidableEq, Repr

/-- A raycast hit record. -/
structure JSHit where
  point : JSVec
  normal : JSVec
  distance : JSNum
deriving DecidableEq, Repr

/-- `Physics.raycastAABB(ray, obj)` (`src/js/core/Physics.js`
lines 364-395) over JavaScript number semantics: the slab method with no
guard against a zero direction component. -/
def jsRaycastAABB (ray : JSRay) (bounds : JSBounds) : Option JSHit :=
  let tMin : JSVec :=
    ⟨(bounds.x.sub ray.origin.x).div ray.direction.x,
     (bounds.y.sub ray.origin.y).div ray.direction.y⟩
  let tMax : JSVec :=
    ⟨((bounds.x.add bounds.width).sub ray.origin.x).div ray.direction.x,
     ((bounds.y.add bounds.height).sub ray.origin.y).div ray.direction.y⟩
  let t1 : JSVec := ⟨JSNum.jmin tMin.x tMax.x, JSNum.jmin tMin.y tMax.y⟩
  let t2 : JSVec := ⟨JSNum.jmax tMin.x tMax.x, JSNum.jmax tMin.y tMax.y⟩
  let tNear := JSNum.jmax t1.x t1.y
  let tFar := JSNum.jmin t2.x t2.y
  if JSNum.jgt tNear tFar || JSNum.jlt tFar (JSNum.fin 0)
      || JSNum.jgt tNear ray.maxDistance then
    none
  else
    let distance := if JSNum.jgt tNear (JSNum.fin 0) then tNear else tFar
    let point := ray.origin.add (ray.direction.smul distance)
    let normal : JSVec :=
      if JSNum.jlt (JSNum.jabs (tNear.sub t1.x)) (JSNum.fin (1/1000)) then
        ⟨if JSNum.jgt ray.direction.x (JSNum.fin 0) then JSNum.fin (-1)
          else JSNum.fin 1, JSNum.fin 0⟩
      else
        ⟨JSNum.fin 0,
         if JSNum.jgt ray.direction.y (JSNum.fin 0) then JSNum.fin (-1)
          else JSNum.fin 1⟩
    some ⟨point, normal, distance⟩

/-- The slice of object state `resolveVelocity`/`applyFriction` read, over
JavaScript numbers. -/
structure JSObj where
  velocity : JSVec
  mass : JSNum
  bounciness : JSNum
  friction : JSNum
  solid : Bool
  hasStaticTag : Bool
deriving DecidableEq, Repr

/-- `Physics.applyFriction` (lines 282-312) over JavaScript number
semantics. -/
def jsApplyFriction (objA objB : JSObj) (normal : JSVec)
    (normalImpulse : JSNum) : JSObj × JSObj :=
  let relativeVelocity := objB.velocity.sub objA.velocity
  let tangent :=
    relativeVelocity.sub (normal.smul (relativeVelocity.dot normal))
  if JSNum.jlt tangent.magnitudeSquared (JSNum.fin (1/1000)) then (objA, objB)
  else
    let tangent := tangent.normalize
    let frictionCoefficient := JSNum.jsqrt (objA.friction.mul objB.friction)
    let frictionImpulse :=
      ((relativeVelocity.dot tangent).neg).div
        (((JSNum.fin 1).div objA.mass).add ((JSNum.fin 1).div objB.mass))
    let frictionMagnitude := (JSNum.jabs normalImpulse).mul frictionCoefficient
    let friction :=
      if JSNum.jlt (JSNum.jabs frictionImpulse) frictionMagnitude then
        tangent.smul frictionImpulse
      else
        tangent.smul ((frictionMagnitude.neg).mul (JSNum.jsign frictionImpulse))
    let objA :=
      if objA.solid && !objA.hasStaticTag then
        { objA with velocity :=
            objA.velocity.sub (friction.smul ((JSNum.fin 1).div objA.mass)) }
      else objA
    let objB :=
      if objB.solid && !objB.hasStaticTag then
        { objB with velocity :=
            objB.velocity.add (friction.smul ((JSNum.fin 1).div objB.mass)) }
      else objB
    (objA, objB)

/-- `Physics.resolveVelocity` (lines 251-280) over JavaScript number
semantics: no guard against a zero mass, so the inverse masses can be
infinite and the impulse application can produce `0 * Infinity = NaN`. -/
def jsResolveVelocity (objA objB : JSObj) (normal : JSVec) : JSObj × JSObj :=
  let relativeVelocity := objB.velocity.sub objA.velocity
  let velocityAlongNormal := relativeVelocity.dot normal
  if JSNum.jgt velocityAlongNormal (JSNum.fin 0) then (objA, objB)
  else
    let restitution := JSNum.jmin objA.bounciness objB.bounciness
    let impulseScalar :=
      (((JSNum.fin 1).add restitution).mul velocityAlongNormal).neg.div
        (((JSNum.fin 1).div objA.mass).add ((JSNum.fin 1).div objB.mass))
    let impulse := normal.smul impulseScalar
    let objA :=
      if objA.solid && !objA.hasStaticTag then
        { objA with velocity :=
            objA.velocity.sub (impulse.smul ((JSNum.fin 1).div objA.mass)) }
      else objA
    let objB :=
      if objB.solid && !objB.hasStaticTag then
        { objB with velocity :=
            objB.velocity.add (impulse.smul ((JSNum.fin 1).div objB.mass)) }
      else objB
    jsApplyFriction objA objB normal impulseScalar

/-!  ## Concrete sample states for witnesses and counterexamples  -/

/-- A freshly constructed player (the constructor defaults of
`src/unnamed/part_001`): full health, three lives, no active timers, no
shield, unit mass. -/
def samplePlayer : Player :=
  { health := 100, maxHealth := 100, lives := 3
    invulnerabilityTime := 0, invulnerabilityDuration := 1
    shieldEnabled := false, shieldActive := false
    position := ⟨100, 100⟩, velocity := ⟨0, 0⟩, size := ⟨24, 32⟩
    mass := 1, score := 0, gameOverFired := false }

/-- A damage source whose centre is 32 pixels left of the centre of
`samplePlayer` (so the knockback direction is exactly `(1, 0)`). -/
def sampleSource : Player.DamageSource :=
  { center := ⟨(100 : ℚ) + 12 - 32, (100 : ℚ) + 16⟩ }

/-- Default values of the `GameObject` constructor for the fields of
`PhysObj`, with a given id and position. -/
def defaultObj (i : ℕ) (pos : Vec2) : PhysObj :=
  { id := i, position := pos, velocity := ⟨0, 0⟩, acceleration := ⟨0, 0⟩
    size := ⟨32, 32⟩, collisionBounds := none
    mass := 1, friction := 4/5, bounciness := 0, gravityScale := 1
    active := true, solid := true, destroyed := false, isTrigger := false
    collisionLayers := ["default"], collisionMask := ["default"]
    hasStaticTag := false, hasTriggerCallback := false
    hasCollisionCallback := false }

/-- A solid 32x32 box at the origin. -/
def boxA : PhysObj := defaultObj 1 ⟨0, 0⟩

/-- A solid 32x32 box overlapping `boxA` by 8 pixels along x (and by 32
along y, so x is the axis of least overlap). -/
def boxB : PhysObj := defaultObj 2 ⟨24, 0⟩

/-- A trigger object (non-solid, `isTrigger`, with an `onTriggerEnter`
callback, exempt from gravity) overlapping `sampleSolid`. -/
def sampleTrigger : PhysObj :=
  { defaultObj 1 ⟨0, 0⟩ with
      solid := false, isTrigger := true, gravityScale := 0
      hasTriggerCallback := true }

/-- A solid object at rest overlapping `sampleTrigger`, exempt from
gravity so the overlap persists across sub-steps. -/
def sampleSolid : PhysObj :=
  { defaultObj 2 ⟨16, 0⟩ with gravityScale := 0 }

/-- A solid object on the `pickup` layer whose mask also names `pickup`.
The fixed adjacency table pairs `pickup` only with `player`. -/
def pickupA : PhysObj :=
  { defaultObj 1 ⟨0, 0⟩ with
      collisionLayers := ["pickup"], collisionMask := ["pickup"] }

/-- A second such object, overlapping the first. -/
def pickupB : PhysObj :=
  { defaultObj 2 ⟨16, 0⟩ with
      collisionLayers := ["pickup"], collisionMask := ["pickup"] }

/-- An enemy patrolling right, 45 pixels from its start, whose patrol state
timer has exceeded the 3 second timeout. -/
def patrolEnemy : Enemy :=
  { position := ⟨45, 0⟩, velocity := ⟨50, 0⟩, startPosition := ⟨0, 0⟩
    patrolDistance := 100, stateTimer := 7/2, direction := 1, speed := 100 }

/-- A live world object. -/
def liveObj : World.WObj := ⟨1, true, false⟩

/-- A zero-direction ray (`Vector2.normalized` of the zero vector is the
zero vector) starting inside `unitBox`. -/
def zeroRay : JSRay :=
  { origin := ⟨JSNum.fin 16, JSNum.fin 16⟩
    direction := ⟨JSNum.fin 0, JSNum.fin 0⟩
    maxDistance := JSNum.fin 100 }

/-- A 32x32 box at the origin, as JavaScript numbers. -/
def unitBox : JSBounds :=
  ⟨JSNum.fin 0, JSNum.fin 0, JSNum.fin 32, JSNum.fin 32⟩

/-- A solid, non-static, zero-mass object at rest. -/
def zeroMassObj : JSObj :=
  { velocity := ⟨JSNum.fin 0, JSNum.fin 0⟩, mass := JSNum.fin 0
    bounciness := JSNum.fin 0, friction := JSNum.fin 1
    solid := true, hasStaticTag := false }

/-- A solid, non-static, unit-mass object approaching `zeroMassObj`. -/
def unitMassObj : JSObj :=
  { velocity := ⟨JSNum.fin 0, JSNum.fin (-1)⟩, mass := JSNum.fin 1
    bounciness := JSNum.fin 0, friction := JSNum.fin 1
    solid := true, hasStaticTag := false }

/-- One physics sub-step at the default cell size and a 60 Hz sub-step
duration. -/
def stepOnce : PairWorld → PairWorld := physicsSubStepPair ratSqrt 64 (1/60)

/-!  # Theorems  -/

/-- C10: `Player.heal` sets health to `min(maxHealth, health + amount)`;
consequently the invariant `health ≤ maxHealth` holds after every heal, and
healing a full-health player by a non-negative amount leaves health
unchanged. -/
theorem C10_heal_caps_at_max (p : Player) (amount : ℚ) :
    (p.heal amount).health = min p.maxHealth (p.health + amount) ∧
    (p.heal amount).health ≤ p.maxHealth ∧
    (0 ≤ amount → p.health = p.maxHealth → (p.heal amount).health = p.health) := by
  refine ⟨rfl, min_le_left _ _, fun ha hh => ?_⟩
  simp only [Player.heal, hh]
  exact min_eq_left (by linarith)

/-- Witness for C10 at a concrete full-health player and amount 5. -/
theorem C10_heal_caps_at_max_witness :
    (samplePlayer.heal 5).health
        = min samplePlayer.maxHealth (samplePlayer.health + 5) ∧
    (samplePlayer.heal 5).health ≤ samplePlayer.maxHealth ∧
    (0 ≤ (5 : ℚ) → samplePlayer.health = samplePlayer.maxHealth →
      (samplePlayer.heal 5).health = samplePlayer.health) :=
  C10_heal_caps_at_max samplePlayer 5

/-- C6: an object with `gravityScale = 0` is left completely unchanged by
gravity application — no force is added and no field (in particular
`position.y`) moves — across any number of `applyGravity` passes. -/
theorem C6_gravity_ignores_zero_scale (g : Vec2) (tv : ℚ) (o : PhysObj)
    (h : o.gravityScale = 0) :
    applyGravityObj g tv o = o ∧ ∀ n, (applyGravityObj g tv)^[n] o = o := by
  have h1 : applyGravityObj g tv o = o := by
    simp [applyGravityObj, h]
  exact ⟨h1, fun n => Function.iterate_fixed h1 n⟩

/-- Witness for C6 at a concrete gravity-exempt object and the default
gravity vector and terminal velocity. -/
theorem C6_gravity_ignores_zero_scale_witness :
    applyGravityObj ⟨0, 980⟩ 1000 sampleSolid = sampleSolid ∧
    ∀ n, (applyGravityObj ⟨0, 980⟩ 1000)^[n] sampleSolid = sampleSolid :=
  C6_gravity_ignores_zero_scale ⟨0, 980⟩ 1000 sampleSolid rfl

/-- `mathAbs` agrees with the absolute value on `ℚ`. -/
theorem mathAbs_eq_abs (q : ℚ) : mathAbs q = |q| := by
  unfold mathAbs
  rcases lt_or_le q 0 with h | h
  · rw [if_pos h, abs_of_neg h]
  · rw [if_neg (not_lt.mpr h), abs_of_nonneg h]

/-- C9 counterexample: `patrolEnemy` is 45 < 100 pixels from its start with
`patrolDistance = 100`, yet one `updatePatrol` call reverses the sign of
its horizontal velocity, because its patrol state timer exceeds the 3
second timeout — the claim says the reversal happens exactly at distance
100 "and not before". -/
theorem C9_counterexample :
    mathAbs (patrolEnemy.position.x - patrolEnemy.startPosition.x)
        < patrolEnemy.patrolDistance ∧
    patrolEnemy.patrolDistance = 100 ∧
    0 < patrolEnemy.velocity.x ∧
    (patrolEnemy.updatePatrol).velocity.x < 0 := by
  norm_num [patrolEnemy, Enemy.updatePatrol, mathAbs]

/-- C9 (amended): in the patrol state with `patrolDistance = 100`, the sign
of the horizontal velocity reverses exactly when the distance from
`startPosition.x` has reached 100 OR the patrol state timer has exceeded
3 seconds, whichever happens first. -/
theorem C9_patrol_reversal (e : Enemy)
    (hd : e.direction = 1 ∨ e.direction = -1) (hs : 0 < e.speed)
    (hp : e.patrolDistance = 100) :
    (e.updatePatrol).velocity.x * e.direction < 0 ↔
      100 ≤ |e.position.x - e.startPosition.x| ∨ 3 < e.stateTimer := by
  by_cases hc : mathAbs (e.position.x - e.startPosition.x) ≥ e.patrolDistance
      ∨ e.stateTimer > 3
  · have hvx : (e.updatePatrol).velocity.x = e.direction * (-1) * e.speed * (1/2) := by
      simp only [Enemy.updatePatrol, if_pos hc]
    have hrhs : 100 ≤ |e.position.x - e.startPosition.x| ∨ 3 < e.stateTimer := by
      rw [← mathAbs_eq_abs, ← hp]; exact hc
    rw [hvx]
    simp only [hrhs, iff_true]
    rcases hd with h1 | h1 <;> rw [h1] <;> nlinarith [hs]
  · have hvx : (e.updatePatrol).velocity.x = e.direction * e.speed * (1/2) := by
      simp only [Enemy.updatePatrol, if_neg hc]
    have hrhs : ¬(100 ≤ |e.position.x - e.startPosition.x| ∨ 3 < e.stateTimer) := by
      rw [← mathAbs_eq_abs, ← hp]; exact hc
    rw [hvx]
    simp only [hrhs, iff_false, not_lt]
    rcases hd with h1 | h1 <;> rw [h1] <;> nlinarith [hs]

/-- C1: two solid, equal-mass, non-trigger 32x32 AABBs overlapping by 8
pixels along x (the axis of least overlap).  `positionalCorrection` applies
the mass-weighted 80% correction with the sign inverted: it moves box A
right by 3.2 and box B left by 3.2 — each TOWARD the other — so the
x-interpenetration grows from 8 to 72/5 = 14.4 and the claimed combined
separation of at least 0.8p is violated (the separation shrinks by 0.8p).
This contradicts the source comments "Position correction (separate
overlapping objects)" at the `resolveCollision` call site. -/
theorem C1_positionalCorrection_moves_boxes_together :
    checkAABBCollision boxA boxB = some ⟨⟨-1, 0⟩, 8, ⟨28, 16⟩⟩ ∧
    (positionalCorrection boxA boxB ⟨⟨-1, 0⟩, 8, ⟨28, 16⟩⟩).1.position
        = ⟨16/5, 0⟩ ∧
    (positionalCorrection boxA boxB ⟨⟨-1, 0⟩, 8, ⟨28, 16⟩⟩).2.position
        = ⟨104/5, 0⟩ ∧
    boxA.position.x + boxA.size.x - boxB.position.x = 8 ∧
    ((positionalCorrection boxA boxB ⟨⟨-1, 0⟩, 8, ⟨28, 16⟩⟩).1.position.x
      + boxA.size.x
      - (positionalCorrection boxA boxB ⟨⟨-1, 0⟩, 8, ⟨28, 16⟩⟩).2.position.x
      = 72/5) ∧
    (8 : ℚ) < 72/5 := by
  norm_num [boxA, boxB, defaultObj, PhysObj.getBounds, checkAABBCollision,
    positionalCorrection, Vec2.smul, Vec2.add, Vec2.sub]

/-- C2 counterexample: a trigger resting in overlap with a solid object
(one continuous overlap onset).  Each physics sub-step leaves both objects
exactly as they were — so the overlap persists — yet `onTriggerEnter` on
the trigger side has fired once after one sub-step and twice after two
sub-steps, not exactly once per overlap onset. -/
theorem C2_counterexample :
    checkAABBCollision sampleTrigger sampleSolid
        = some ⟨⟨-1, 0⟩, 16, ⟨24, 16⟩⟩ ∧
    (stepOnce ⟨sampleTrigger, sampleSolid, ⟨0, 0, 0, 0⟩⟩).a = sampleTrigger ∧
    (stepOnce ⟨sampleTrigger, sampleSolid, ⟨0, 0, 0, 0⟩⟩).b = sampleSolid ∧
    (stepOnce ⟨sampleTrigger, sampleSolid, ⟨0, 0, 0, 0⟩⟩).counts.triggerEnterA
        = 1 ∧
    (stepOnce (stepOnce ⟨sampleTrigger, sampleSolid, ⟨0, 0, 0, 0⟩⟩)).counts.triggerEnterA
        = 2 := by
  norm_num [stepOnce, physicsSubStepPair, integrateVelocity, integratePosition,
    SpatialGrid.getPotentialCollisionPairs, SpatialGrid.addObjects,
    SpatialGrid.addObject, SpatialGrid.addToCell, SpatialGrid.getCellsForBounds,
    SpatialGrid.cellPairs, SpatialGrid.dedupPairs, SpatialGrid.pairKey,
    sampleTrigger, sampleSolid, defaultObj, PhysObj.getBounds,
    shouldCheckCollision, checkAABBCollision, resolveCollision,
    handleTriggerCollision, handleCollisionCallbacks, Vec2.add, Vec2.smul,
    Vec2.zero, List.lookup, List.range, List.flatMap, List.foldl]

/-- C2 (amended): resolving a collision in which either participant is a
trigger never changes either object (in particular neither position nor
velocity), fires `onTriggerEnter` exactly once per resolution — that is,
once per physics sub-step in which the overlap is detected — on each
trigger side that has a callback, and never fires plain `onCollision`
callbacks. -/
theorem C2_trigger_resolution (sqrt : ℚ → ℚ) (a b : PhysObj)
    (col : Collision) (counts : CallbackCounts)
    (h : a.isTrigger ∨ b.isTrigger) :
    (resolveCollision sqrt a b col counts).1 = a ∧
    (resolveCollision sqrt a b col counts).2.1 = b ∧
    (resolveCollision sqrt a b col counts).2.2.triggerEnterA
        = counts.triggerEnterA
          + (if a.isTrigger && a.hasTriggerCallback then 1 else 0) ∧
    (resolveCollision sqrt a b col counts).2.2.triggerEnterB
        = counts.triggerEnterB
          + (if b.isTrigger && b.hasTriggerCallback then 1 else 0) ∧
    (resolveCollision sqrt a b col counts).2.2.collisionA
        = counts.collisionA ∧
    (resolveCollision sqrt a b col counts).2.2.collisionB
        = counts.collisionB := by
  have hor : (a.isTrigger || b.isTrigger) = true := by
    rcases h with h | h <;> simp [h]
  unfold resolveCollision
  rw [if_pos hor]
  unfold handleTriggerCollision
  refine ⟨rfl, rfl, ?_, ?_, ?_, ?_⟩ <;>
    rcases ha : a.isTrigger && a.hasTriggerCallback with _ | _ <;>
    rcases hb : b.isTrigger && b.hasTriggerCallback with _ | _ <;>
    simp [ha, hb]

/-- Witness for C2 (amended) at the concrete trigger/solid pair. -/
theorem C2_trigger_resolution_witness :
    (sampleTrigger.isTrigger ∨ sampleSolid.isTrigger) ∧
    (resolveCollision ratSqrt sampleTrigger sampleSolid
        ⟨⟨-1, 0⟩, 16, ⟨24, 16⟩⟩ ⟨0, 0, 0, 0⟩).1 = sampleTrigger ∧
    (resolveCollision ratSqrt sampleTrigger sampleSolid
        ⟨⟨-1, 0⟩, 16, ⟨24, 16⟩⟩ ⟨0, 0, 0, 0⟩).2.1 = sampleSolid := by
  have h : sampleTrigger.isTrigger ∨ sampleSolid.isTrigger := Or.inl rfl
  have main := C2_trigger_resolution ratSqrt sampleTrigger sampleSolid
    ⟨⟨-1, 0⟩, 16, ⟨24, 16⟩⟩ ⟨0, 0, 0, 0⟩ h
  exact ⟨h, main.1, main.2.1⟩

/-- C4 counterexample: two overlapping objects on the `pickup` layer whose
masks request each other.  The fixed adjacency table
(`setupDefaultCollisionLayers`) does not pair `pickup` with `pickup` —
`canLayersCollide` rejects it — yet `shouldCheckCollision` proceeds to the
narrow phase, because the matrix is never consulted there.  The adjacency
table therefore does not determine which layer pairs are candidates. -/
theorem C4_counterexample :
    shouldCheckCollision pickupA pickupB = true ∧
    canLayersCollide defaultCollisionMatrix "pickup" "pickup" = false := by
  decide

/-- The nested per-layer loops of `shouldCheckCollision` amount to the
either-side-requests-it mask condition, as long as both layer lists are
non-empty (the `GameObject` constructor and every entity class install
non-empty layer lists). -/
theorem any_mask_iff (A B maskA maskB : List String)
    (hA : A ≠ []) (hB : B ≠ []) :
    (A.any fun layerA => B.any fun layerB =>
        maskA.contains layerB || maskB.contains layerA) = true ↔
      ((∃ l ∈ B, l ∈ maskA) ∨ (∃ l ∈ A, l ∈ maskB)) := by
  simp only [List.any_eq_true, Bool.or_eq_true, List.elem_iff]
  constructor
  · rintro ⟨la, hla, lb, hlb, h | h⟩
    · exact Or.inl ⟨lb, hlb, h⟩
    · exact Or.inr ⟨la, hla, h⟩
  · rintro (⟨lb, hlb, h⟩ | ⟨la, hla, h⟩)
    · obtain ⟨la, hla⟩ := List.exists_mem_of_ne_nil A hA
      exact ⟨la, hla, lb, hlb, Or.inl h⟩
    · obtain ⟨lb, hlb⟩ := List.exists_mem_of_ne_nil B hB
      exact ⟨la, hla, lb, hlb, Or.inr h⟩

/-- C4 (amended): the narrow phase proceeds if and only if the identity,
liveness and solidity guards pass and the per-object mask check passes
(A's mask contains one of B's layers OR B's mask contains one of A's
layers).  The fixed adjacency table `collisionMatrix`/`canLayersCollide`
plays no role: `shouldCheckCollision` never consults it (see the
counterexample). -/
theorem C4_mask_check_decides (a b : PhysObj)
    (ha : a.collisionLayers ≠ []) (hb : b.collisionLayers ≠ []) :
    shouldCheckCollision a b = true ↔
      (a.id ≠ b.id ∧ a.destroyed = false ∧ b.destroyed = false ∧
       a.active = true ∧ b.active = true ∧
       (a.solid = true ∨ b.solid = true ∨
         a.isTrigger = true ∨ b.isTrigger = true) ∧
       ((∃ l ∈ b.collisionLayers, l ∈ a.collisionMask) ∨
        (∃ l ∈ a.collisionLayers, l ∈ b.collisionMask))) := by
  unfold shouldCheckCollision
  split_ifs with h1 h2 h3
  · simp only [Bool.false_eq_true, false_iff]
    rintro ⟨hne, -⟩
    exact hne h1
  · simp only [Bool.false_eq_true, false_iff]
    rintro ⟨-, hda, hdb, haa, hab, -⟩
    simp [hda, hdb, haa, hab] at h2
  · simp only [Bool.false_eq_true, false_iff]
    rintro ⟨-, -, -, -, -, hsolid, -⟩
    rcases hsolid with h | h | h | h <;> simp [h] at h3
  · rw [any_mask_iff a.collisionLayers b.collisionLayers
      a.collisionMask b.collisionMask ha hb]
    have hda : a.destroyed = false := by revert h2; cases a.destroyed <;> simp
    have hdb : b.destroyed = false := by revert h2; cases b.destroyed <;> simp
    have haa : a.active = true := by revert h2; cases a.active <;> simp
    have hab : b.active = true := by revert h2; cases b.active <;> simp
    have hsol : a.solid = true ∨ b.solid = true ∨
        a.isTrigger = true ∨ b.isTrigger = true := by
      revert h3
      cases a.solid <;> cases b.solid <;> cases a.isTrigger <;>
        cases b.isTrigger <;> simp
    constructor
    · intro hmask
      exact ⟨h1, hda, hdb, haa, hab, hsol, hmask⟩
    · rintro ⟨-, -, -, -, -, -, hmask⟩
      exact hmask

/-- Witness for C4 (amended) at the concrete `pickup`/`pickup` pair. -/
theorem C4_mask_check_decides_witness :
    pickupA.collisionLayers ≠ [] ∧ pickupB.collisionLayers ≠ [] ∧
    (shouldCheckCollision pickupA pickupB = true ↔
      (pickupA.id ≠ pickupB.id ∧ pickupA.destroyed = false ∧
       pickupB.destroyed = false ∧ pickupA.active = true ∧
       pickupB.active = true ∧
       (pickupA.solid = true ∨ pickupB.solid = true ∨
         pickupA.isTrigger = true ∨ pickupB.isTrigger = true) ∧
       ((∃ l ∈ pickupB.collisionLayers, l ∈ pickupA.collisionMask) ∨
        (∃ l ∈ pickupA.collisionLayers, l ∈ pickupB.collisionMask)))) :=
  ⟨by simp [pickupA, defaultObj], by simp [pickupB, defaultObj],
    C4_mask_check_decides pickupA pickupB
      (by simp [pickupA, defaultObj]) (by simp [pickupB, defaultObj])⟩

/-- Removing the first occurrence of an id only ever removes elements. -/
theorem mem_removeFirstById {y : World.WObj} :
    ∀ {l : List World.WObj} {i : ℕ}, y ∈ World.removeFirstById l i → y ∈ l := by
  intro l
  induction l with
  | nil => intro i h; exact absurd h (by simp [World.removeFirstById])
  | cons o rest ih =>
      intro i h
      unfold World.removeFirstById at h
      by_cases ho : o.id = i
      · rw [if_pos ho] at h
        exact List.mem_cons_of_mem o h
      · rw [if_neg ho] at h
        rcases List.mem_cons.mp h with h | h
        · exact h ▸ List.mem_cons_self o rest
        · exact List.mem_cons_of_mem o (ih h)

/-- An element whose id is not the removed one survives the removal. -/
theorem mem_removeFirstById_of_ne {y : World.WObj} :
    ∀ {l : List World.WObj} {i : ℕ}, y ∈ l → y.id ≠ i →
      y ∈ World.removeFirstById l i := by
  intro l
  induction l with
  | nil => intro i h _; exact absurd h (by simp)
  | cons o rest ih =>
      intro i h hne
      unfold World.removeFirstById
      rcases List.mem_cons.mp h with h | h
      · have : ¬ o.id = i := h ▸ hne
        rw [if_neg this, h]
        exact List.mem_cons_self o (World.removeFirstById rest i)
      · by_cases ho : o.id = i
        · rw [if_pos ho]; exact h
        · rw [if_neg ho]; exact List.mem_cons_of_mem o (ih h hne)

/-- The removal pass of `processObjectChanges` only ever removes
elements. -/
theorem mem_removalFold {y : World.WObj} :
    ∀ {rs : List World.WObj} {l : List World.WObj},
      y ∈ rs.foldl (fun l o => World.removeFirstById l o.id) l → y ∈ l := by
  intro rs
  induction rs with
  | nil => intro l h; exact h
  | cons r rest ih =>
      intro l h
      exact mem_removeFirstById (ih h)

/-- An element none of whose ids are queued for removal survives the whole
removal pass. -/
theorem mem_removalFold_of_ne {y : World.WObj} :
    ∀ {rs : List World.WObj} {l : List World.WObj},
      y ∈ l → (∀ r ∈ rs, r.id ≠ y.id) →
      y ∈ rs.foldl (fun l o => World.removeFirstById l o.id) l := by
  intro rs
  induction rs with
  | nil => intro l h _; exact h
  | cons r rest ih =>
      intro l h hne
      exact ih (mem_removeFirstById_of_ne h fun hy => hne r (List.mem_cons_self r rest) hy.symm)
        fun r hr => hne r (List.mem_cons_of_mem _ hr)

/-- Every member of `markDestroyed ids l` whose id is in `ids` carries
`destroyed = true`. -/
theorem mem_markDestroyed_destroyed {ids : List ℕ} {l : List World.WObj}
    {y : World.WObj} (hy : y ∈ World.markDestroyed ids l) (hid : y.id ∈ ids) :
    y.destroyed = true := by
  unfold World.markDestroyed at hy
  rcases List.mem_map.mp hy with ⟨o, -, ho⟩
  by_cases hio : o.id ∈ ids
  · rw [if_pos hio] at ho
    rw [← ho]
  · rw [if_neg hio] at ho
    rw [← ho] at hid
    exact absurd hid hio

/-- C5 (amended): the deferred queues are fully drained at the top of
`World.update` before any per-object update runs (the frame iterates the
drained list and both queues are empty then); an object handed to
`addObject` during frame N — with an id fresh for the world — is absent
from frame N's pass and present in frame N+1's pass (provided nothing
destroys or removes it in between); and an object destroyed during frame N
is absent from frame N+1's pass (provided no same-id object is added).  It
is only removed from `gameObjects` by frame N+1's drain, not at the end of
frame N: see the counterexample. -/
theorem C5_deferred_lifecycle (s : World.WState) (fx fx2 : World.FrameEffects)
    (x : World.WObj) :
    (World.processObjectChanges s).toAdd = [] ∧
    (World.processObjectChanges s).toRemove = [] ∧
    (World.runFrame s fx).2 = (World.processObjectChanges s).gameObjects ∧
    (x ∈ fx.adds →
      (∀ y ∈ s.gameObjects, y.id ≠ x.id) → (∀ y ∈ s.toAdd, y.id ≠ x.id) →
      x ∉ (World.runFrame s fx).2) ∧
    (x ∈ fx.adds → x.destroyed = false →
      (∀ y ∈ fx.removes, y.id ≠ x.id) →
      x ∈ (World.runFrame (World.runFrame s fx).1 fx2).2) ∧
    (∀ i ∈ fx.destroys, (∀ y ∈ fx.adds, y.id ≠ i) →
      ∀ y ∈ (World.runFrame (World.runFrame s fx).1 fx2).2, y.id ≠ i) := by
  refine ⟨rfl, rfl, rfl, ?_, ?_, ?_⟩
  · intro hx hfresh hfresh2 hmem
    have h1 : x ∈ (s.gameObjects ++ s.toAdd) := by
      have h2 := mem_removalFold (List.mem_filter.mp hmem).1
      exact h2
    rcases List.mem_append.mp h1 with h | h
    · exact hfresh x h rfl
    · exact hfresh2 x h rfl
  · intro hx hnd hnr
    show x ∈ (World.processObjectChanges (World.runFrame s fx).1).gameObjects
    unfold World.processObjectChanges
    apply List.mem_filter.mpr
    refine ⟨?_, by simp [hnd]⟩
    apply mem_removalFold_of_ne
    · apply List.mem_append.mpr
      apply Or.inr
      show x ∈ (World.processObjectChanges s).toAdd ++ fx.adds
      simp only [World.processObjectChanges]
      simpa using hx
    · intro r hr
      show r.id ≠ x.id
      have : (World.runFrame s fx).1.toRemove = fx.removes := by
        simp [World.runFrame, World.processObjectChanges]
      rw [this] at hr
      exact hnr r hr
  · intro i hi hadds y hy
    have hmem := List.mem_filter.mp hy
    have h1 := mem_removalFold hmem.1
    intro hyi
    rcases List.mem_append.mp h1 with h | h
    · have h2 : y ∈ World.markDestroyed fx.destroys
          (World.processObjectChanges s).gameObjects := h
      have h3 := mem_markDestroyed_destroyed h2 (hyi ▸ hi)
      have h4 := hmem.2
      simp [h3] at h4
    · have h2 : y ∈ (World.processObjectChanges s).toAdd ++ fx.adds := h
      simp only [World.processObjectChanges, List.nil_append] at h2
      exact hadds y h2 hyi

/-- Witness for C5 (amended) at a concrete world: one live object, a fresh
object added and another object destroyed during the frame. -/
theorem C5_deferred_lifecycle_witness :
    ((World.processObjectChanges ⟨[liveObj], [], []⟩).toAdd = [] ∧
     (World.processObjectChanges ⟨[liveObj], [], []⟩).toRemove = [] ∧
     (World.runFrame ⟨[liveObj], [], []⟩ ⟨[⟨2, true, false⟩], [], [1]⟩).2
        = (World.processObjectChanges ⟨[liveObj], [], []⟩).gameObjects ∧
     ((⟨2, true, false⟩ : World.WObj) ∈ [(⟨2, true, false⟩ : World.WObj)] →
       (∀ y ∈ [liveObj], y.id ≠ 2) → (∀ y ∈ ([] : List World.WObj), y.id ≠ 2) →
       (⟨2, true, false⟩ : World.WObj)
         ∉ (World.runFrame ⟨[liveObj], [], []⟩ ⟨[⟨2, true, false⟩], [], [1]⟩).2) ∧
     ((⟨2, true, false⟩ : World.WObj) ∈ [(⟨2, true, false⟩ : World.WObj)] →
       (⟨2, true, false⟩ : World.WObj).destroyed = false →
       (∀ y ∈ ([] : List World.WObj), y.id ≠ 2) →
       (⟨2, true, false⟩ : World.WObj)
         ∈ (World.runFrame
              (World.runFrame ⟨[liveObj], [], []⟩
                ⟨[⟨2, true, false⟩], [], [1]⟩).1 ⟨[], [], []⟩).2) ∧
     (∀ i ∈ [1], (∀ y ∈ [(⟨2, true, false⟩ : World.WObj)], y.id ≠ i) →
       ∀ y ∈ (World.runFrame
                (World.runFrame ⟨[liveObj], [], []⟩
                  ⟨[⟨2, true, false⟩], [], [1]⟩).1 ⟨[], [], []⟩).2, y.id ≠ i)) :=
  C5_deferred_lifecycle ⟨[liveObj], [], []⟩ ⟨[⟨2, true, false⟩], [], [1]⟩
    ⟨[], [], []⟩ ⟨2, true, false⟩

/-- C5 counterexample: a world holding one live object; during the frame
the game calls `destroy()` on it (it is marked `destroyed`, `active=false`).
After `World.update` returns — the frame has completed — the object is
still in the live `gameObjects` list: the sweep only happens at the top of
the NEXT frame's `processObjectChanges`. -/
theorem C5_counterexample :
    ∃ o ∈ (World.runFrame ⟨[liveObj], [], []⟩ ⟨[], [], [1]⟩).1.gameObjects,
      o.id = liveObj.id ∧ o.destroyed = true := by
  refine ⟨⟨1, false, true⟩, ?_, rfl, rfl⟩
  norm_num [World.runFrame, World.processObjectChanges, World.markDestroyed,
    liveObj]

/-- C7: the degenerate physics inputs are NOT guarded.  A zero-direction
ray cast from inside an AABB returns an ill-formed hit (NaN point,
infinite distance) instead of no hit, and an impulse calculation with a
zero-mass participant sets both solid participants' velocities to NaN
instead of applying no impulse: `1/mass` is `Infinity` and the zero
impulse times the infinite inverse mass is `0 * Infinity = NaN`. -/
theorem C7_degenerate_inputs_unguarded :
    jsRaycastAABB zeroRay unitBox =
      some ⟨⟨JSNum.nan, JSNum.nan⟩, ⟨JSNum.fin 0, JSNum.fin 1⟩, JSNum.inf⟩ ∧
    (jsResolveVelocity zeroMassObj unitMassObj
        ⟨JSNum.fin 0, JSNum.fin 1⟩).1.velocity = ⟨JSNum.nan, JSNum.nan⟩ ∧
    (jsResolveVelocity zeroMassObj unitMassObj
        ⟨JSNum.fin 0, JSNum.fin 1⟩).2.velocity = ⟨JSNum.nan, JSNum.nan⟩ := by
  refine ⟨?_, ?_⟩
  · norm_num [jsRaycastAABB, zeroRay, unitBox, JSNum.add, JSNum.sub,
      JSNum.neg, JSNum.mul, JSNum.div, JSNum.jmin, JSNum.jmax, JSNum.jlt,
      JSNum.jgt, JSNum.jabs, JSVec.add, JSVec.smul]
  · norm_num [jsResolveVelocity, jsApplyFriction, zeroMassObj, unitMassObj,
      JSNum.add, JSNum.sub, JSNum.neg, JSNum.mul, JSNum.div, JSNum.jmin,
      JSNum.jmax, JSNum.jlt, JSNum.jgt, JSNum.jabs, JSNum.jsign, JSNum.jsqrt,
      ratSqrt, JSVec.add, JSVec.sub, JSVec.smul, JSVec.dot,
      JSVec.magnitudeSquared, JSVec.normalize, mathSign]

/-- `Player.die` always leaves a positive invulnerability window when the
dying player carried one: respawn grants a doubled window, game over keeps
the current one. -/
theorem die_invulnerabilityTime_pos (cp : Option Vec2) (q : Player)
    (hq : 0 < q.invulnerabilityTime) (hq2 : 0 < q.invulnerabilityDuration) :
    0 < (Player.die cp q).invulnerabilityTime := by
  unfold Player.die Player.respawn Player.gameOver
  rcases cp with _ | c <;> by_cases h : q.lives - 1 > 0 <;>
    simp [h] <;> linarith

/-- C8 (amended): `takeDamage` is refused — returns `false` with the whole
player state untouched — while the invulnerability timer is active or an
active shield blocks it.  Otherwise it returns `true`, an invulnerability
window begins, and — provided the damage is non-lethal — health decreases
by exactly the amount and a knockback impulse pointing away from the
damage source (a non-negative multiple of the centre-to-centre vector) is
added to the velocity.  (For lethal damage the subsequent death handling
rewrites health and velocity: see the counterexample.) -/
theorem C8_takeDamage_spec (sqrt : ℚ → ℚ) (hsq : ∀ q, 0 ≤ sqrt q)
    (cp : Option Vec2) (p : Player) (amount : ℚ)
    (src : Player.DamageSource) (hm : 0 < p.mass)
    (hd : 0 < p.invulnerabilityDuration) :
    ((p.invulnerabilityTime > 0 ∨
        (p.shieldEnabled = true ∧ p.shieldActive = true)) →
      Player.takeDamage sqrt cp p amount (some src) = (p, false)) ∧
    (¬(p.invulnerabilityTime > 0 ∨
        (p.shieldEnabled = true ∧ p.shieldActive = true)) →
      (Player.takeDamage sqrt cp p amount (some src)).2 = true ∧
      0 < (Player.takeDamage sqrt cp p amount (some src)).1.invulnerabilityTime ∧
      (0 < p.health - amount →
        (Player.takeDamage sqrt cp p amount (some src)).1.health
            = p.health - amount ∧
        ∃ c : ℚ, 0 ≤ c ∧
          (Player.takeDamage sqrt cp p amount (some src)).1.velocity
            = p.velocity.add ((p.getCenter.sub src.center).smul c))) := by
  constructor
  · rintro (hinv | ⟨hse, hsa⟩)
    · unfold Player.takeDamage
      rw [if_pos hinv]
    · unfold Player.takeDamage
      by_cases hinv : p.invulnerabilityTime > 0
      · rw [if_pos hinv]
      · rw [if_neg hinv, if_pos (by simp [hse, hsa])]
  · intro hblock
    push_neg at hblock
    have hbool : ¬((p.shieldEnabled && p.shieldActive) = true) := by
      cases hse : p.shieldEnabled <;> cases hsa : p.shieldActive <;>
        simp_all
    set p1 : Player :=
      { p with
          health := p.health - amount
          invulnerabilityTime := p.invulnerabilityDuration } with hp1
    set p2 : Player := p1.addImpulse
      ((Vec2.normalizedWith sqrt (p1.getCenter.sub src.center)).smul 200)
      with hp2
    have hstep : Player.takeDamage sqrt cp p amount (some src)
        = ((if p2.health ≤ 0 then Player.die cp p2 else p2), true) := by
      unfold Player.takeDamage
      rw [if_neg (not_lt.mpr hblock.1), if_neg hbool]
    rw [hstep]
    refine ⟨rfl, ?_, ?_⟩
    · -- the invulnerability window begins in every branch
      split_ifs with hle
      · exact die_invulnerabilityTime_pos cp p2 hd hd
      · exact hd
    · intro hsurvive
      have hle : ¬(p2.health ≤ 0) := by
        show ¬(p.health - amount ≤ 0)
        linarith
      rw [if_neg hle]
      refine ⟨rfl, ?_⟩
      have hcen : p1.getCenter = p.getCenter := rfl
      rw [hp2, hcen]
      unfold Player.addImpulse Vec2.normalizedWith
      set d : Vec2 := p.getCenter.sub src.center with hdd
      by_cases hmag : sqrt (d.x * d.x + d.y * d.y) = 0
      · refine ⟨0, le_refl 0, ?_⟩
        rw [if_pos hmag]
        show p.velocity.add _ = _
        unfold Vec2.add Vec2.smul Vec2.zero
        norm_num
      · have hpos : 0 < sqrt (d.x * d.x + d.y * d.y) :=
          lt_of_le_of_ne (hsq _) (Ne.symm hmag)
        refine ⟨200 / (sqrt (d.x * d.x + d.y * d.y) * p.mass),
          by positivity, ?_⟩
        rw [if_neg hmag]
        show p.velocity.add _ = _
        unfold Vec2.add Vec2.smul
        have hmne : p.mass ≠ 0 := ne_of_gt hm
        have hsne : sqrt (d.x * d.x + d.y * d.y) ≠ 0 := hmag
        congr 1 <;> field_simp

/-- `ratSqrt` is non-negative, as `Math.sqrt` is on non-NaN results. -/
theorem ratSqrt_nonneg (q : ℚ) : 0 ≤ ratSqrt q := by
  unfold ratSqrt
  rw [Rat.mkRat_eq_div]
  positivity

/-- Witness for C8 (amended) at the concrete default player, 30 damage
from a source to its left. -/
theorem C8_takeDamage_spec_witness :
    0 < samplePlayer.mass ∧ 0 < samplePlayer.invulnerabilityDuration ∧
    (((samplePlayer.invulnerabilityTime > 0 ∨
        (samplePlayer.shieldEnabled = true ∧
         samplePlayer.shieldActive = true)) →
      Player.takeDamage ratSqrt none samplePlayer 30 (some sampleSource)
        = (samplePlayer, false)) ∧
     (¬(samplePlayer.invulnerabilityTime > 0 ∨
        (samplePlayer.shieldEnabled = true ∧
         samplePlayer.shieldActive = true)) →
      (Player.takeDamage ratSqrt none samplePlayer 30 (some sampleSource)).2
          = true ∧
      0 < (Player.takeDamage ratSqrt none samplePlayer 30
            (some sampleSource)).1.invulnerabilityTime ∧
      (0 < samplePlayer.health - 30 →
        (Player.takeDamage ratSqrt none samplePlayer 30
            (some sampleSource)).1.health = samplePlayer.health - 30 ∧
        ∃ c : ℚ, 0 ≤ c ∧
          (Player.takeDamage ratSqrt none samplePlayer 30
              (some sampleSource)).1.velocity
            = samplePlayer.velocity.add
                ((samplePlayer.getCenter.sub sampleSource.center).smul c)))) :=
  ⟨by norm_num [samplePlayer], by norm_num [samplePlayer],
    C8_takeDamage_spec ratSqrt ratSqrt_nonneg none samplePlayer 30
      sampleSource (by norm_num [samplePlayer]) (by norm_num [samplePlayer])⟩

/-- C8 counterexample: a full-health player with 3 lives, no active
invulnerability and no shield takes 150 damage from a source to its left.
The call is not blocked and returns `true`, but afterwards health is 100 —
not `100 - 150` — and the knockback velocity has been wiped to zero,
because the lethal hit triggered `die -> respawn`, which refills health and
resets velocity.  "Health decreases by the amount" therefore fails for
lethal damage when lives remain. -/
theorem C8_counterexample :
    samplePlayer.invulnerabilityTime = 0 ∧
    samplePlayer.shieldEnabled = false ∧
    (Player.takeDamage ratSqrt none samplePlayer 150 (some sampleSource)).2
        = true ∧
    (Player.takeDamage ratSqrt none samplePlayer 150 (some sampleSource)).1.health
        = 100 ∧
    samplePlayer.health - 150 = -50 ∧
    (Player.takeDamage ratSqrt none samplePlayer 150 (some sampleSource)).1.velocity
        = ⟨0, 0⟩ := by
  norm_num [Player.takeDamage, Player.die, Player.respawn, Player.gameOver,
    Player.addImpulse, Player.getCenter, samplePlayer, sampleSource,
    Vec2.normalizedWith, Vec2.zero, Vec2.add, Vec2.sub, Vec2.smul,
    ratSqrt, mkRat]

/-- Pushing an object into a cell appends it to that cell's list and leaves
every other cell's list unchanged. -/
theorem gridGet_addToCell (g : SpatialGrid.Grid) (c' : SpatialGrid.Cell)
    (o : PhysObj) (c : SpatialGrid.Cell) :
    SpatialGrid.gridGet (SpatialGrid.addToCell g c' o) c
      = if c = c' then SpatialGrid.gridGet g c ++ [o]
        else SpatialGrid.gridGet g c := by
  induction g with
  | nil =>
      simp only [SpatialGrid.addToCell, SpatialGrid.gridGet]
      by_cases h : c = c'
      · rw [if_pos h.symm, if_pos h]
        rfl
      · rw [if_neg (fun hh => h hh.symm), if_neg h]
  | cons e rest ih =>
      obtain ⟨k, os⟩ := e
      simp only [SpatialGrid.addToCell]
      by_cases hk : k = c'
      · rw [if_pos hk]
        simp only [SpatialGrid.gridGet]
        by_cases hc : k = c
        · rw [if_pos hc, if_pos (hc ▸ hk ▸ rfl : c = c'), if_pos hc]
        · rw [if_neg hc]
          have : ¬ c = c' := fun h => hc (by rw [hk, ← h])
          rw [if_neg this, if_neg hc]
      · rw [if_neg hk]
        simp only [SpatialGrid.gridGet]
        by_cases hc : k = c
        · have : ¬ c = c' := fun h => hk (hc.trans h)
          rw [if_pos hc, if_neg this, if_pos hc]
        · rw [if_neg hc, ih, if_neg hc]

/-- Inserting one object into all cells of a cell list: an object is in a
cell's list afterwards iff it was there before or it is the inserted object
and the cell is listed. -/
theorem gridGet_foldl_addToCell (o a : PhysObj) :
    ∀ (cs : List SpatialGrid.Cell) (g : SpatialGrid.Grid)
      (c : SpatialGrid.Cell),
      a ∈ SpatialGrid.gridGet
            (cs.foldl (fun g c => SpatialGrid.addToCell g c o) g) c ↔
        a ∈ SpatialGrid.gridGet g c ∨ (a = o ∧ c ∈ cs) := by
  intro cs
  induction cs with
  | nil => intro g c; simp
  | cons c0 rest ih =>
      intro g c
      simp only [List.foldl_cons]
      rw [ih (SpatialGrid.addToCell g c0 o) c, gridGet_addToCell]
      by_cases hc : c = c0
      · rw [if_pos hc]
        simp only [hc, List.mem_append, List.mem_cons, List.mem_singleton]
        tauto
      · rw [if_neg hc]
        simp only [List.mem_cons]
        constructor
        · rintro (h | h)
          · exact Or.inl h
          · exact Or.inr ⟨h.1, Or.inr h.2⟩
        · rintro (h | ⟨ha, hc0 | hrest⟩)
          · exact Or.inl h
          · exact absurd hc0 hc
          · exact Or.inr ⟨ha, hrest⟩

/-- `SpatialGrid.addObject` in terms of cell contents. -/
theorem gridGet_addObject (cellSize : ℚ) (g : SpatialGrid.Grid)
    (o a : PhysObj) (c : SpatialGrid.Cell) :
    a ∈ SpatialGrid.gridGet (SpatialGrid.addObject cellSize g o) c ↔
      a ∈ SpatialGrid.gridGet g c ∨
        (a = o ∧ c ∈ SpatialGrid.getCellsForBounds cellSize o.getBounds) := by
  exact gridGet_foldl_addToCell o a _ g c

/-- `SpatialGrid.addObjects` in terms of cell contents: an object sits in a
cell's list iff it is an active, non-destroyed member of the inserted list
and the cell is one of the cells its AABB overlaps. -/
theorem gridGet_addObjects (cellSize : ℚ) (objs : List PhysObj)
    (a : PhysObj) (c : SpatialGrid.Cell) :
    a ∈ SpatialGrid.gridGet (SpatialGrid.addObjects cellSize objs) c ↔
      (a ∈ objs ∧ a.active = true ∧ a.destroyed = false ∧
        c ∈ SpatialGrid.getCellsForBounds cellSize a.getBounds) := by
  have aux : ∀ (os : List PhysObj) (g : SpatialGrid.Grid),
      a ∈ SpatialGrid.gridGet
            (os.foldl (fun g o =>
              if o.active && !o.destroyed then SpatialGrid.addObject cellSize g o
              else g) g) c ↔
        a ∈ SpatialGrid.gridGet g c ∨
          (a ∈ os ∧ a.active = true ∧ a.destroyed = false ∧
            c ∈ SpatialGrid.getCellsForBounds cellSize a.getBounds) := by
    intro os
    induction os with
    | nil => intro g; simp
    | cons o rest ih =>
        intro g
        simp only [List.foldl_cons]
        rw [ih]
        by_cases ho : o.active && !o.destroyed
        · rw [if_pos ho, gridGet_addObject]
          simp only [List.mem_cons]
          constructor
          · rintro ((h | ⟨rfl, hc⟩) | h)
            · exact Or.inl h
            · have hb := Bool.and_eq_true_iff.mp ho
              exact Or.inr ⟨Or.inl rfl, hb.1, by simpa using hb.2, hc⟩
            · exact Or.inr ⟨Or.inr h.1, h.2.1, h.2.2.1, h.2.2.2⟩
          · rintro (h | ⟨(rfl | hmem), hact, hdes, hc⟩)
            · exact Or.inl (Or.inl h)
            · exact Or.inl (Or.inr ⟨rfl, hc⟩)
            · exact Or.inr ⟨hmem, hact, hdes, hc⟩
        · rw [if_neg ho]
          simp only [List.mem_cons]
          constructor
          · rintro (h | h)
            · exact Or.inl h
            · exact Or.inr ⟨Or.inr h.1, h.2.1, h.2.2.1, h.2.2.2⟩
          · rintro (h | ⟨(rfl | hmem), hact, hdes, hc⟩)
            · exact Or.inl h
            · exact absurd (by simp [hact, hdes]) ho
            · exact Or.inr ⟨hmem, hact, hdes, hc⟩
  rw [SpatialGrid.addObjects, aux objs []]
  simp [SpatialGrid.gridGet]

/-- A non-empty cell list is stored as an entry of the grid. -/
theorem gridGet_mem_entry :
    ∀ (g : SpatialGrid.Grid) (c : SpatialGrid.Cell),
      SpatialGrid.gridGet g c = [] ∨ (c, SpatialGrid.gridGet g c) ∈ g := by
  intro g
  induction g with
  | nil => intro c; exact Or.inl rfl
  | cons e rest ih =>
      intro c
      obtain ⟨k, os⟩ := e
      simp only [SpatialGrid.gridGet]
      by_cases hk : k = c
      · rw [if_pos hk]
        exact Or.inr (hk ▸ List.mem_cons_self _ _)
      · rw [if_neg hk]
        rcases ih c with h | h
        · exact Or.inl h
        · exact Or.inr (List.mem_cons_of_mem _ h)

/-- The components of any pair produced by the inner double loop are
members of the cell list. -/
theorem cellPairs_sound {x y : PhysObj} :
    ∀ {os : List PhysObj}, (x, y) ∈ SpatialGrid.cellPairs os →
      x ∈ os ∧ y ∈ os := by
  intro os
  induction os with
  | nil => intro h; exact absurd h (by simp [SpatialGrid.cellPairs])
  | cons o rest ih =>
      intro h
      simp only [SpatialGrid.cellPairs, List.mem_append, List.mem_map] at h
      rcases h with ⟨p, hp, he⟩ | h
      · obtain ⟨rfl, rfl⟩ := Prod.mk.injEq .. ▸ And.intro
          (congrArg Prod.fst he) (congrArg Prod.snd he)
        exact ⟨List.mem_cons_self _ _, List.mem_cons_of_mem _ hp⟩
      · obtain ⟨hx, hy⟩ := ih h
        exact ⟨List.mem_cons_of_mem _ hx, List.mem_cons_of_mem _ hy⟩

/-- Two distinct members of a cell list appear as a candidate pair, in one
of the two orders. -/
theorem cellPairs_complete {a b : PhysObj} :
    ∀ {os : List PhysObj}, a ∈ os → b ∈ os → a ≠ b →
      (a, b) ∈ SpatialGrid.cellPairs os ∨
      (b, a) ∈ SpatialGrid.cellPairs os := by
  intro os
  induction os with
  | nil => intro ha _ _; exact absurd ha (by simp)
  | cons o rest ih =>
      intro ha hb hne
      simp only [SpatialGrid.cellPairs, List.mem_append, List.mem_map]
      rcases List.mem_cons.mp ha with hao | ha2
      · have hb2 : b ∈ rest := by
          rcases List.mem_cons.mp hb with hbo | h
          · exact absurd (hao.trans hbo.symm) hne
          · exact h
        exact Or.inl (Or.inl ⟨b, hb2, by rw [hao]⟩)
      · rcases List.mem_cons.mp hb with hbo | hb2
        · exact Or.inr (Or.inl ⟨a, ha2, by rw [hbo]⟩)
        · rcases ih ha2 hb2 hne with h | h
          · exact Or.inl (Or.inr h)
          · exact Or.inr (Or.inr h)

/-- `dedupPairs` only emits pairs from its candidate stream. -/
theorem dedupPairs_sound {p : PhysObj × PhysObj} :
    ∀ {l : List (PhysObj × PhysObj)} {checked : List (ℕ × ℕ)},
      p ∈ SpatialGrid.dedupPairs l checked → p ∈ l := by
  intro l
  induction l with
  | nil => intro checked h; exact absurd h (by simp [SpatialGrid.dedupPairs])
  | cons q rest ih =>
      intro checked h
      obtain ⟨x, y⟩ := q
      simp only [SpatialGrid.dedupPairs] at h
      by_cases hk : SpatialGrid.pairKey x y ∈ checked
      · rw [if_pos hk] at h
        exact List.mem_cons_of_mem _ (ih h)
      · rw [if_neg hk] at h
        rcases List.mem_cons.mp h with rfl | h
        · exact List.mem_cons_self _ _
        · exact List.mem_cons_of_mem _ (ih h)

/-- The keys of the pairs emitted by `dedupPairs` are distinct and disjoint
from the already-checked keys. -/
theorem dedupPairs_keys_nodup :
    ∀ (l : List (PhysObj × PhysObj)) (checked : List (ℕ × ℕ)),
      ((SpatialGrid.dedupPairs l checked).map
          (fun p => SpatialGrid.pairKey p.1 p.2)).Nodup ∧
      ∀ k ∈ (SpatialGrid.dedupPairs l checked).map
          (fun p => SpatialGrid.pairKey p.1 p.2), k ∉ checked := by
  intro l
  induction l with
  | nil => intro checked; simp [SpatialGrid.dedupPairs]
  | cons q rest ih =>
      intro checked
      obtain ⟨x, y⟩ := q
      simp only [SpatialGrid.dedupPairs]
      by_cases hk : SpatialGrid.pairKey x y ∈ checked
      · rw [if_pos hk]
        exact ih checked
      · rw [if_neg hk]
        obtain ⟨hnd, hdisj⟩ := ih (SpatialGrid.pairKey x y :: checked)
        simp only [List.map_cons, List.nodup_cons]
        refine ⟨⟨?_, hnd⟩, ?_⟩
        · intro hmem
          exact (hdisj _ hmem) (List.mem_cons_self _ _)
        · intro k hkmem
          rcases List.mem_cons.mp hkmem with rfl | hkmem
          · exact hk
          · intro hkc
            exact (hdisj k hkmem) (List.mem_cons_of_mem _ hkc)

/-- If a candidate pair's key is not yet checked, some emitted pair carries
the same key. -/
theorem dedupPairs_complete {a b : PhysObj} :
    ∀ {l : List (PhysObj × PhysObj)} {checked : List (ℕ × ℕ)},
      (a, b) ∈ l → SpatialGrid.pairKey a b ∉ checked →
      ∃ p ∈ SpatialGrid.dedupPairs l checked,
        SpatialGrid.pairKey p.1 p.2 = SpatialGrid.pairKey a b := by
  intro l
  induction l with
  | nil => intro checked h _; exact absurd h (by simp)
  | cons q rest ih =>
      intro checked hmem hnc
      obtain ⟨x, y⟩ := q
      simp only [SpatialGrid.dedupPairs]
      by_cases hk : SpatialGrid.pairKey x y ∈ checked
      · rw [if_pos hk]
        rcases List.mem_cons.mp hmem with he | hmem2
        · obtain ⟨rfl, rfl⟩ := Prod.mk.injEq .. ▸ And.intro
            (congrArg Prod.fst he.symm) (congrArg Prod.snd he.symm)
          exact absurd hk hnc
        · exact ih hmem2 hnc
      · rw [if_neg hk]
        by_cases hkey : SpatialGrid.pairKey a b = SpatialGrid.pairKey x y
        · exact ⟨(x, y), List.mem_cons_self _ _, hkey.symm⟩
        · rcases List.mem_cons.mp hmem with he | hmem2
          · have : SpatialGrid.pairKey a b = SpatialGrid.pairKey x y := by
              rw [show a = x from congrArg Prod.fst he,
                show b = y from congrArg Prod.snd he]
            exact absurd this hkey
          · have hnc2 : SpatialGrid.pairKey a b
                ∉ SpatialGrid.pairKey x y :: checked := by
              intro h
              rcases List.mem_cons.mp h with h | h
              · exact hkey h
              · exact hnc h
            obtain ⟨p, hp, hpk⟩ := ih hmem2 hnc2
            exact ⟨p, List.mem_cons_of_mem _ hp, hpk⟩

/-- Every object stored anywhere in the grid built by `addObjects` is an
active, non-destroyed member of the inserted list. -/
theorem grid_entries_from_objs (cellSize : ℚ) (objs : List PhysObj) :
    ∀ e ∈ SpatialGrid.addObjects cellSize objs, ∀ x ∈ e.2,
      x ∈ objs ∧ x.active = true ∧ x.destroyed = false := by
  have step1 : ∀ (P : PhysObj → Prop) (g : SpatialGrid.Grid)
      (c : SpatialGrid.Cell) (o : PhysObj),
      (∀ e ∈ g, ∀ x ∈ e.2, P x) → P o →
      ∀ e ∈ SpatialGrid.addToCell g c o, ∀ x ∈ e.2, P x := by
    intro P g
    induction g with
    | nil =>
        intro c o _ hPo e he x hx
        simp only [SpatialGrid.addToCell, List.mem_singleton] at he
        rw [he] at hx
        simp only [List.mem_singleton] at hx
        exact hx ▸ hPo
    | cons f rest ih =>
        intro c o hall hPo e he x hx
        obtain ⟨k, os⟩ := f
        simp only [SpatialGrid.addToCell] at he
        by_cases hk : k = c
        · rw [if_pos hk] at he
          rcases List.mem_cons.mp he with rfl | he2
          · simp only [List.mem_append, List.mem_singleton] at hx
            rcases hx with hx | rfl
            · exact hall (k, os) (List.mem_cons_self _ _) x hx
            · exact hPo
          · exact hall e (List.mem_cons_of_mem _ he2) x hx
        · rw [if_neg hk] at he
          rcases List.mem_cons.mp he with rfl | he2
          · exact hall (k, os) (List.mem_cons_self _ _) x hx
          · exact ih c o (fun e he => hall e (List.mem_cons_of_mem _ he))
              hPo e he2 x hx
  have step2 : ∀ (P : PhysObj → Prop) (cs : List SpatialGrid.Cell)
      (g : SpatialGrid.Grid) (o : PhysObj),
      (∀ e ∈ g, ∀ x ∈ e.2, P x) → P o →
      ∀ e ∈ cs.foldl (fun g c => SpatialGrid.addToCell g c o) g,
        ∀ x ∈ e.2, P x := by
    intro P cs
    induction cs with
    | nil => intro g o hall _; exact hall
    | cons c rest ih =>
        intro g o hall hPo
        exact ih _ o (step1 P g c o hall hPo) hPo
  have step3 : ∀ (P : PhysObj → Prop) (os : List PhysObj)
      (g : SpatialGrid.Grid),
      (∀ e ∈ g, ∀ x ∈ e.2, P x) →
      (∀ o ∈ os, o.active = true → o.destroyed = false → P o) →
      ∀ e ∈ os.foldl (fun g o =>
          if o.active && !o.destroyed then SpatialGrid.addObject cellSize g o
          else g) g,
        ∀ x ∈ e.2, P x := by
    intro P os
    induction os with
    | nil => intro g hall _; exact hall
    | cons o rest ih =>
        intro g hall hP
        simp only [List.foldl_cons]
        by_cases ho : o.active && !o.destroyed
        · rw [if_pos ho]
          have hb := Bool.and_eq_true_iff.mp ho
          exact ih _ (step2 P _ g o hall
              (hP o (List.mem_cons_self _ _) hb.1 (by simpa using hb.2)))
            fun o2 ho2 => hP o2 (List.mem_cons_of_mem _ ho2)
        · rw [if_neg ho]
          exact ih _ hall fun o2 ho2 => hP o2 (List.mem_cons_of_mem _ ho2)
  exact step3 _ objs [] (by simp)
    (fun o ho ha hd => ⟨ho, ha, hd⟩)

/-- Equality of the `(min, max)` id pair forces equality of the unordered
id pair. -/
theorem minmax_ids {x y u v : ℕ} (hmin : min x y = min u v)
    (hmax : max x y = max u v) : (x = u ∧ y = v) ∨ (x = v ∧ y = u) := by
  omega

/-- The pair key is symmetric in the two objects. -/
theorem pairKey_symm (a b : PhysObj) :
    SpatialGrid.pairKey b a = SpatialGrid.pairKey a b := by
  simp [SpatialGrid.pairKey, Nat.min_comm, Nat.max_comm]

/-- C3: over any object set with injective ids (every `GameObject` gets a
fresh id from `generateId`), the broad phase is sound and complete: every
inserted active object is listed in every grid cell its AABB overlaps;
`getPotentialCollisionPairs` never returns the same unordered pair twice;
and it returns every unordered pair of distinct active objects whose AABBs
overlap at least one common grid cell. -/
theorem C3_spatial_grid_pairs (cellSize : ℚ) (objs : List PhysObj)
    (hinj : ∀ a ∈ objs, ∀ b ∈ objs, a.id = b.id → a = b) :
    (∀ a ∈ objs, a.active = true → a.destroyed = false →
      ∀ c ∈ SpatialGrid.getCellsForBounds cellSize a.getBounds,
        a ∈ SpatialGrid.gridGet (SpatialGrid.addObjects cellSize objs) c) ∧
    List.Pairwise
      (fun p q => ¬((p.1 = q.1 ∧ p.2 = q.2) ∨ (p.1 = q.2 ∧ p.2 = q.1)))
      (SpatialGrid.getPotentialCollisionPairs
        (SpatialGrid.addObjects cellSize objs)) ∧
    (∀ a ∈ objs, ∀ b ∈ objs, a ≠ b → a.active = true → a.destroyed = false →
      b.active = true → b.destroyed = false →
      (∃ c, c ∈ SpatialGrid.getCellsForBounds cellSize a.getBounds ∧
            c ∈ SpatialGrid.getCellsForBounds cellSize b.getBounds) →
      ∃ p ∈ SpatialGrid.getPotentialCollisionPairs
          (SpatialGrid.addObjects cellSize objs),
        p = (a, b) ∨ p = (b, a)) := by
  set grid := SpatialGrid.addObjects cellSize objs with hgrid
  refine ⟨?_, ?_, ?_⟩
  · intro a ha hact hdes c hc
    exact (gridGet_addObjects cellSize objs a c).mpr ⟨ha, hact, hdes, hc⟩
  · have hnd := (dedupPairs_keys_nodup
      (grid.flatMap fun kc => SpatialGrid.cellPairs kc.2) []).1
    have hpw := List.pairwise_map.mp hnd
    refine List.Pairwise.imp ?_ hpw
    intro p q hkey hsame
    apply hkey
    rcases hsame with ⟨h1, h2⟩ | ⟨h1, h2⟩
    · rw [h1, h2]
    · rw [h1, h2]
      exact pairKey_symm q.1 q.2
  · intro a ha b hbm hne hact1 hdes1 hact2 hdes2 hcell
    obtain ⟨c, hca, hcb⟩ := hcell
    have hga : a ∈ SpatialGrid.gridGet grid c :=
      (gridGet_addObjects cellSize objs a c).mpr ⟨ha, hact1, hdes1, hca⟩
    have hgb : b ∈ SpatialGrid.gridGet grid c :=
      (gridGet_addObjects cellSize objs b c).mpr ⟨hbm, hact2, hdes2, hcb⟩
    have hentry : (c, SpatialGrid.gridGet grid c) ∈ grid := by
      rcases gridGet_mem_entry grid c with h | h
      · rw [h] at hga
        exact absurd hga (List.not_mem_nil a)
      · exact h
    have hcand : ∀ {x y : PhysObj},
        (x, y) ∈ SpatialGrid.cellPairs (SpatialGrid.gridGet grid c) →
        (x, y) ∈ grid.flatMap fun kc => SpatialGrid.cellPairs kc.2 := by
      intro x y hxy
      exact List.mem_flatMap.mpr ⟨(c, SpatialGrid.gridGet grid c), hentry, hxy⟩
    have conclude : ∀ p ∈ SpatialGrid.getPotentialCollisionPairs grid,
        SpatialGrid.pairKey p.1 p.2 = SpatialGrid.pairKey a b →
        p = (a, b) ∨ p = (b, a) := by
      rintro ⟨x, y⟩ hpmem hpkey
      have hsound : (x, y) ∈ grid.flatMap fun kc => SpatialGrid.cellPairs kc.2 :=
        dedupPairs_sound hpmem
      obtain ⟨e, hem, hpcell⟩ := List.mem_flatMap.mp hsound
      obtain ⟨hxos, hyos⟩ := cellPairs_sound hpcell
      obtain ⟨hxobjs, -, -⟩ := grid_entries_from_objs cellSize objs e hem x hxos
      obtain ⟨hyobjs, -, -⟩ := grid_entries_from_objs cellSize objs e hem y hyos
      have hk : (min x.id y.id, max x.id y.id) = (min a.id b.id, max a.id b.id) :=
        hpkey
      have hmin : min x.id y.id = min a.id b.id := congrArg Prod.fst hk
      have hmax : max x.id y.id = max a.id b.id := congrArg Prod.snd hk
      rcases minmax_ids hmin hmax with ⟨h1, h2⟩ | ⟨h1, h2⟩
      · exact Or.inl (by
          rw [hinj x hxobjs a ha h1, hinj y hyobjs b hbm h2])
      · exact Or.inr (by
          rw [hinj x hxobjs b hbm h1, hinj y hyobjs a ha h2])
    rcases cellPairs_complete hga hgb hne with hp | hp
    · obtain ⟨p, hpmem, hpkey⟩ :=
        dedupPairs_complete (hcand hp)
          (List.not_mem_nil (SpatialGrid.pairKey a b))
      exact ⟨p, hpmem, conclude p hpmem hpkey⟩
    · obtain ⟨p, hpmem, hpkey⟩ :=
        dedupPairs_complete (hcand hp)
          (List.not_mem_nil (SpatialGrid.pairKey b a))
      exact ⟨p, hpmem, conclude p hpmem (hpkey.trans (pairKey_symm a b))⟩

/-- Witness for C3 at two concrete overlapping boxes with distinct ids:
the single emitted pair is exactly the unordered pair of the two boxes. -/
theorem C3_spatial_grid_pairs_witness :
    (∀ a ∈ [boxA, boxB], ∀ b ∈ [boxA, boxB], a.id = b.id → a = b) ∧
    ((∀ a ∈ [boxA, boxB], a.active = true → a.destroyed = false →
      ∀ c ∈ SpatialGrid.getCellsForBounds 64 a.getBounds,
        a ∈ SpatialGrid.gridGet (SpatialGrid.addObjects 64 [boxA, boxB]) c) ∧
    List.Pairwise
      (fun p q => ¬((p.1 = q.1 ∧ p.2 = q.2) ∨ (p.1 = q.2 ∧ p.2 = q.1)))
      (SpatialGrid.getPotentialCollisionPairs
        (SpatialGrid.addObjects 64 [boxA, boxB])) ∧
    (∀ a ∈ [boxA, boxB], ∀ b ∈ [boxA, boxB], a ≠ b →
      a.active = true → a.destroyed = false →
      b.active = true → b.destroyed = false →
      (∃ c, c ∈ SpatialGrid.getCellsForBounds 64 a.getBounds ∧
            c ∈ SpatialGrid.getCellsForBounds 64 b.getBounds) →
      ∃ p ∈ SpatialGrid.getPotentialCollisionPairs
          (SpatialGrid.addObjects 64 [boxA, boxB]),
        p = (a, b) ∨ p = (b, a))) := by
  have hinj : ∀ a ∈ [boxA, boxB], ∀ b ∈ [boxA, boxB], a.id = b.id → a = b := by
    intro a ha b hb hid
    rcases List.mem_cons.mp ha with rfl | ha <;>
      rcases List.mem_cons.mp hb with rfl | hb <;>
      simp_all [boxA, boxB, defaultObj]
  exact ⟨hinj, C3_spatial_grid_pairs 64 [boxA, boxB] hinj⟩

/-- Witness for C9 (amended) at a patrolling enemy exactly at distance 100
with a fresh state timer. -/
theorem C9_patrol_reversal_witness :
    ((1 : ℚ) = 1 ∨ (1 : ℚ) = -1) ∧ (0 : ℚ) < 100 ∧ (100 : ℚ) = 100 ∧
    ((Enemy.updatePatrol
        ⟨⟨100, 0⟩, ⟨50, 0⟩, ⟨0, 0⟩, 100, 1, 1, 100⟩).velocity.x * 1 < 0 ↔
      100 ≤ |(100 : ℚ) - 0| ∨ (3 : ℚ) < 1) :=
  ⟨Or.inl rfl, by norm_num, rfl,
    C9_patrol_reversal ⟨⟨100, 0⟩, ⟨50, 0⟩, ⟨0, 0⟩, 100, 1, 1, 100⟩
      (Or.inl rfl) (by norm_num) rfl⟩

end EchoGenesis
